import Mathlib

/-
Verification of the MediaCore pipeline: a shallow embedding of the
rate-limited TMDB client, the IMDb bulk importer, the paginated crawl
engine, and the read-side discovery/resolution services, with proofs of
the specified properties.

Times are modelled as rationals (the Python code uses event-loop float
timestamps; only ordered-field comparisons occur).  Machine-level
concerns (sockets, SQLite byte layout) are abstracted into oracle
functions and explicit table states.
-/

namespace MediaCore

/-! ## Rate limiter — `api-central/tmdb_client.py`, class `RateLimiter`

`acquire()` loops: under a lock it reads `now`, prunes
`request_times` to entries with `now - t < period_seconds`, and either
records `now` and returns (admission) or computes a wait time and sleeps
outside the lock before retrying.  Because every check-and-record step
runs under the lock and the event-loop clock is monotone, an execution
with any number of concurrent callers is a sequence of attempts at
nondecreasing times against a single shared timestamp list; `runAcquire`
replays such a sequence. -/

namespace RateLimiter

/-- Line 26 of `tmdb_client.py`: drop timestamps that left the window
(`[t for t in self.request_times if now - t < self.period_seconds]`). -/
def prune (T now : ℚ) (times : List ℚ) : List ℚ :=
  times.filter (fun t => decide (now - t < T))

/-- One locked check in `acquire` (lines 22-33): prune, then either admit
(append `now`, return) or report the wait until the oldest entry exits. -/
inductive AcquireOutcome where
  | granted (newTimes : List ℚ)
  | wait (newTimes : List ℚ) (waitTime : ℚ)
deriving DecidableEq

def acquireStep (N : ℕ) (T : ℚ) (st : List ℚ) (now : ℚ) : AcquireOutcome :=
  let pruned := prune T now st
  if pruned.length < N then .granted (pruned ++ [now])
  else .wait pruned (pruned.headI + T - now)

/-- Replay a serialized sequence of `acquire` check attempts (each one
lock acquisition at the given clock reading) against the shared
timestamp list, returning the admitted times. -/
def runAcquire (N : ℕ) (T : ℚ) : List ℚ → List ℚ → List ℚ
  | _, [] => []
  | st, now :: rest =>
    match acquireStep N T st now with
    | .granted st' => now :: runAcquire N T st' rest
    | .wait st' _ => runAcquire N T st' rest

/-- Number of admitted requests inside the sliding window `(x, x + T]`. -/
def windowCount (times : List ℚ) (x T : ℚ) : ℕ :=
  (times.filter (fun t => decide (x < t ∧ t ≤ x + T))).length

theorem windowCount_append (l₁ l₂ : List ℚ) (x T : ℚ) :
    windowCount (l₁ ++ l₂) x T = windowCount l₁ x T + windowCount l₂ x T := by
  simp [windowCount, List.filter_append]

theorem windowCount_singleton (t x T : ℚ) :
    windowCount [t] x T = if x < t ∧ t ≤ x + T then 1 else 0 := by
  by_cases h : x < t ∧ t ≤ x + T <;> simp [windowCount, List.filter, h]

theorem prune_prune (T a now : ℚ) (h : now ≤ a) (l : List ℚ) :
    prune T a (prune T now l) = prune T a l := by
  unfold prune
  rw [List.filter_filter]
  apply List.filter_congr
  intro t _
  by_cases h1 : a - t < T
  · have h2 : now - t < T := lt_of_le_of_lt (by linarith) h1
    simp [h1, h2]
  · simp [h1]

theorem prune_append (T now : ℚ) (l₁ l₂ : List ℚ) :
    prune T now (l₁ ++ l₂) = prune T now l₁ ++ prune T now l₂ := by
  simp [prune, List.filter_append]

/-- Inside the window `(x, x+T]`, membership implies survival of a prune
at any time `now ≤ x + T`. -/
theorem windowCount_le_prune_length (l : List ℚ) (x T now : ℚ) (h : now ≤ x + T) :
    windowCount l x T ≤ (prune T now l).length := by
  unfold windowCount prune
  apply List.Sublist.length_le
  apply List.monotone_filter_right
  intro t ht
  have ht' : x < t ∧ t ≤ x + T := of_decide_eq_true ht
  have : now - t < T := by linarith [ht'.1]
  exact decide_eq_true this

/-- Core invariant, generalized over the loop state: if the shared
timestamp list agrees with the accumulated admissions on every future
window, the window quota is never exceeded. -/
theorem runAcquire_window_bound (N : ℕ) (T : ℚ) :
    ∀ (attempts st acc : List ℚ),
      attempts.Sorted (· ≤ ·) →
      (∀ a ∈ attempts, prune T a st = prune T a acc) →
      (∀ x, windowCount acc x T ≤ N) →
      ∀ x, windowCount (acc ++ runAcquire N T st attempts) x T ≤ N := by
  intro attempts
  induction attempts with
  | nil =>
    intro st acc _ _ hacc x
    simpa [runAcquire] using hacc x
  | cons now rest ih =>
    intro st acc hsorted hagree hacc x
    have hsorted' : rest.Sorted (· ≤ ·) := hsorted.of_cons
    have hle : ∀ a ∈ rest, now ≤ a := fun a ha =>
      (List.sorted_cons.mp hsorted).1 a ha
    have hagree_now : prune T now st = prune T now acc :=
      hagree now (List.mem_cons_self _ _)
    rw [runAcquire]
    unfold acquireStep
    by_cases hcap : (prune T now st).length < N
    · -- admission: the state gains `now`, and so does the admitted list
      simp only [hcap, if_pos]
      have key : ∀ a ∈ rest, prune T a (prune T now st ++ [now]) = prune T a (acc ++ [now]) := by
        intro a ha
        rw [prune_append, prune_append, prune_prune T a now (hle a ha), hagree a (List.mem_cons_of_mem _ ha)]
      have hacc' : ∀ y, windowCount (acc ++ [now]) y T ≤ N := by
        intro y
        rw [windowCount_append, windowCount_singleton]
        by_cases hin : y < now ∧ now ≤ y + T
        · -- `now` lands in the window: the earlier admissions in this
          -- window all survive the prune at `now`, so they number < N.
          have h1 : windowCount acc y T ≤ (prune T now acc).length :=
            windowCount_le_prune_length acc y T now hin.2
          rw [← hagree_now] at h1
          rw [if_pos hin]
          omega
        · have := hacc y
          rw [if_neg hin]
          omega
      have hfin := ih (prune T now st ++ [now]) (acc ++ [now]) hsorted' key hacc' x
      rw [windowCount_append, windowCount_append] at hfin
      rw [windowCount_append, ← List.singleton_append, windowCount_append]
      omega
    · -- denial: state is merely pruned; admissions unchanged
      simp only [hcap, if_neg, not_false_iff]
      have key : ∀ a ∈ rest, prune T a (prune T now st) = prune T a acc := by
        intro a ha
        rw [prune_prune T a now (hle a ha), hagree a (List.mem_cons_of_mem _ ha)]
      exact ih (prune T now st) acc hsorted' key hacc x

/-- Claim C1: for every serialized execution of the rate limiter (the
lock serializes concurrent callers; the event-loop clock is monotone,
so the attempt times are sorted), the number of requests admitted by
`acquire()` within any sliding window `(x, x + T]` of `T` seconds never
exceeds the quota `N`, for every arrival pattern including bursts; and
an `acquire` attempt returns (is granted) exactly when the pruned
window holds fewer than `N` admissions — otherwise the caller is told
to wait and must retry, so `acquire()` blocks until admission is
possible. -/
theorem rateLimiter_sliding_window_quota (N : ℕ) (T : ℚ) (attempts : List ℚ)
    (hsorted : attempts.Sorted (· ≤ ·)) :
    (∀ x, windowCount (runAcquire N T [] attempts) x T ≤ N) ∧
    (∀ st now, (∃ l, acquireStep N T st now = .granted l) ↔ (prune T now st).length < N) := by
  constructor
  · intro x
    have := runAcquire_window_bound N T attempts [] [] hsorted
      (fun _ _ => rfl) (fun y => by simp [windowCount]) x
    simpa using this
  · intro st now
    constructor
    · intro ⟨l, hl⟩
      unfold acquireStep at hl
      by_cases h : (prune T now st).length < N
      · exact h
      · simp [h] at hl
    · intro h
      exact ⟨prune T now st ++ [now], by unfold acquireStep; simp [h]⟩

/-- Witness: a burst of three attempts at time 0 and one at time 2
against quota N = 2 per T = 3 seconds admits at most 2 in the window
ending at time 3. -/
theorem rateLimiter_sliding_window_quota_witness :
    List.Sorted (· ≤ ·) [(0 : ℚ), 0, 0, 2] ∧
      windowCount (runAcquire 2 3 [] [(0 : ℚ), 0, 0, 2]) 0 3 ≤ 2 :=
  ⟨by decide, (rateLimiter_sliding_window_quota 2 3 [0, 0, 0, 2] (by decide)).1 0⟩

end RateLimiter

/-! ## Rate-limited client request — `api-central/tmdb_client.py`,
`TMDBClient._request` (lines 57-86)

The HTTP exchange is scripted: each attempt consumes the next entry of a
response script.  A 200 returns the JSON body; a 429 sleeps for the
`Retry-After` header (default 10 s when absent) and recurses on
`self._request(endpoint, params)`; a 404 and every other status or
transport failure return `None`.  An exhausted script stands for a
transport failure (the `except` branch). -/

namespace TMDBClient

inductive Response (β : Type) where
  | ok (body : β)
  | tooManyRequests (retryAfter : Option ℕ)
  | notFound
  | otherError (code : ℕ)
deriving DecidableEq

/-- Observable trace of one `_request` call: the value returned, the
(endpoint, params) pair of every HTTP attempt issued, and the sleeps
performed between attempts. -/
structure RequestTrace (β : Type) where
  result : Option β
  issued : List (String × List (String × String))
  sleeps : List ℕ
deriving DecidableEq

def requestRun {β : Type} (endpoint : String) (params : List (String × String)) :
    List (Response β) → RequestTrace β
  | [] => ⟨none, [(endpoint, params)], []⟩
  | .ok b :: _ => ⟨some b, [(endpoint, params)], []⟩
  | .tooManyRequests ra :: rest =>
    let t := requestRun endpoint params rest
    ⟨t.result, (endpoint, params) :: t.issued, ra.getD 10 :: t.sleeps⟩
  | .notFound :: _ => ⟨none, [(endpoint, params)], []⟩
  | .otherError _ :: _ => ⟨none, [(endpoint, params)], []⟩

/-- Counterexample to claim C4: under two consecutive 429 responses the
call issues three attempts — the recursion retries once per 429 with no
overall bound, so a single call can trigger more than one throttling
retry. -/
theorem request_retries_more_than_once :
    (requestRun "/discover/movie" []
      [Response.tooManyRequests none, Response.tooManyRequests (some 3),
       Response.ok (0 : ℕ)]).issued.length = 3 ∧
    ¬ ((requestRun "/discover/movie" []
      [Response.tooManyRequests none, Response.tooManyRequests (some 3),
       Response.ok (0 : ℕ)]).issued.length ≤ 2) := by
  constructor <;> decide

/-- Claim C4 (amended): on each 429 response the client sleeps for the
provider-supplied `Retry-After` value (defaulting to 10 seconds when the
header is absent) and transparently retries the same endpoint with the
same parameters; the retry repeats for every consecutive 429, without a
bound on the number of throttling retries, and the final result is that
of the first non-429 response. -/
theorem request_throttle_retry (β : Type) (endpoint : String)
    (params : List (String × String)) (ras : List (Option ℕ))
    (rest : List (Response β))
    (hrest : ∀ ra, rest.head? ≠ some (Response.tooManyRequests ra)) :
    (requestRun endpoint params (ras.map Response.tooManyRequests ++ rest)).sleeps
        = ras.map (fun ra => ra.getD 10) ∧
    (requestRun endpoint params (ras.map Response.tooManyRequests ++ rest)).issued
        = List.replicate (ras.length + 1) (endpoint, params) ∧
    (requestRun endpoint params (ras.map Response.tooManyRequests ++ rest)).result
        = (requestRun endpoint params rest).result := by
  induction ras with
  | nil =>
    refine ⟨?_, ?_, rfl⟩ <;>
    · match rest, hrest with
      | [], _ => rfl
      | .ok b :: r, _ => rfl
      | .tooManyRequests ra :: r, h => exact absurd rfl (h ra)
      | .notFound :: r, _ => rfl
      | .otherError c :: r, _ => rfl
  | cons ra ras ih =>
    obtain ⟨h1, h2, h3⟩ := ih
    refine ⟨?_, ?_, ?_⟩ <;>
      simp [requestRun, h1, h2, h3, List.replicate_succ]

/-- Witness for the amended claim C4: one 429 with `Retry-After: 7`
followed by a 404 sleeps 7 seconds, issues two identical attempts, and
returns the 404's absence result. -/
theorem request_throttle_retry_witness :
    (requestRun "/movie/42" [("k", "v")]
        [Response.tooManyRequests (some 7), Response.notFound (β := ℕ)]).sleeps = [7] ∧
    (requestRun "/movie/42" [("k", "v")]
        [Response.tooManyRequests (some 7), Response.notFound (β := ℕ)]).issued
      = List.replicate 2 ("/movie/42", [("k", "v")]) ∧
    (requestRun "/movie/42" [("k", "v")]
        [Response.tooManyRequests (some 7), Response.notFound (β := ℕ)]).result
      = (requestRun "/movie/42" [("k", "v")] [Response.notFound (β := ℕ)]).result := by
  exact request_throttle_retry ℕ "/movie/42" [("k", "v")] [some 7]
    [Response.notFound] (by intro ra; simp)

end TMDBClient

/-! ## Bulk IMDb importer — `api-central/imdb_importer.py`

Each line of a TSV snapshot is split on tabs into a list of fields
(`Row`).  `process_basics` skips rows with fewer than 9 fields, keeps
rows whose `titleType` is whitelisted, rewrites the `\N` sentinel to an
absent value and records the accepted `tconst` set.  The dependent
phases (`process_ratings`, `process_akas`, `process_principals`) drop
rows whose leading identifier is not in that set but have no
short-row guard: an accepted ratings row with fewer than 3 fields hits
`parts[2]` (IndexError), and an accepted akas/principals row with fewer
than 8/6 fields produces a batch row with too few bindings, so the
`executemany` flush fails; either way the phase aborts, modelled by
`Except`.  Each phase starts by dropping and recreating its table. -/

namespace ImdbImporter

abbrev Row := List String

def VALID_TYPES : List String := ["movie", "tvSeries", "tvMiniSeries", "tvMovie"]

/-- `None if p == '\\N' else p` — the TSV null sentinel. -/
def cleanField (s : String) : Option String :=
  if s = "\\N" then none else some s

/-- Accepted rows (in file order, `\N` rewritten) and accepted-id list of
`process_basics` (lines 96-120).  `tconst` is `parts[0]`, `tType` is
`parts[1]` (both exist once the 9-field check passed).  The id list
plays the role of the `kept_tconsts` set: only membership is ever
used. -/
def processBasicsRows : List Row → List (List (Option String)) × List String
  | [] => ([], [])
  | parts :: rest =>
    if parts.length < 9 then processBasicsRows rest
    else
      let r := processBasicsRows rest
      if parts.tail.headI ∈ VALID_TYPES then
        (((parts.take 9).map cleanField) :: r.1, parts.headI :: r.2)
      else r

inductive PhaseError where
  /-- Python `IndexError` from `parts[1]` / `parts[2]` on a short row. -/
  | indexError
  /-- `sqlite3` binding-count mismatch when a short row reaches
  `executemany` at a batch flush. -/
  | bindingError
deriving DecidableEq

/-- Rows loaded by `process_ratings` (lines 151-170): keep `(parts[0],
parts[1], parts[2])` when `parts[0]` is an accepted id; an accepted row
with fewer than 3 fields raises IndexError and aborts the phase. -/
def processRatingsRows (valid : List String) :
    List Row → Except PhaseError (List (String × String × String))
  | [] => .ok []
  | parts :: rest =>
    if parts.headI ∈ valid then
      if 3 ≤ parts.length then
        (processRatingsRows valid rest).map
          (fun r => (parts.headI, parts.tail.headI, parts.tail.tail.headI) :: r)
      else .error .indexError
    else processRatingsRows valid rest

/-- Rows loaded by `process_akas` (lines 202-226): keep
`parts[:8]` with `\N` rewritten when `parts[0]` is accepted; an accepted
row with fewer than 8 fields yields too few bindings at the flush. -/
def processAkasRows (valid : List String) :
    List Row → Except PhaseError (List (List (Option String)))
  | [] => .ok []
  | parts :: rest =>
    if parts.headI ∈ valid then
      if 8 ≤ parts.length then
        (processAkasRows valid rest).map (fun r => ((parts.take 8).map cleanField) :: r)
      else .error .bindingError
    else processAkasRows valid rest

/-- Rows loaded by `process_principals` (lines 256-276): keep
`parts[:6]` with `\N` rewritten when `parts[0]` is accepted. -/
def processPrincipalsRows (valid : List String) :
    List Row → Except PhaseError (List (List (Option String)))
  | [] => .ok []
  | parts :: rest =>
    if parts.headI ∈ valid then
      if 6 ≤ parts.length then
        (processPrincipalsRows valid rest).map (fun r => ((parts.take 6).map cleanField) :: r)
      else .error .bindingError
    else processPrincipalsRows valid rest

/-- SQLite database state seen by the importer: for each table, `none`
when the table does not exist, `some rows` otherwise.  Surrogate
AUTOINCREMENT keys restart from 1 after `DROP TABLE`, so akas/principals
rows are identified by position and need no explicit id column. -/
structure SqliteDB where
  titles : Option (List (List (Option String)))
  ratings : Option (List (String × String × String))
  akas : Option (List (List (Option String)))
  principals : Option (List (List (Option String)))
deriving DecidableEq

/-- Drop-and-recreate plus bulk load of `process_basics`: the resulting
`imdb_titles` table holds exactly the accepted rows, whatever was there
before. -/
def runBasicsPhase (db : SqliteDB) (lines : List Row) : SqliteDB × List String :=
  let r := processBasicsRows lines
  ({ db with titles := some r.1 }, r.2)

def runRatingsPhase (db : SqliteDB) (valid : List String) (lines : List Row) :
    Except PhaseError SqliteDB :=
  (processRatingsRows valid lines).map (fun rows => { db with ratings := some rows })

def runAkasPhase (db : SqliteDB) (valid : List String) (lines : List Row) :
    Except PhaseError SqliteDB :=
  (processAkasRows valid lines).map (fun rows => { db with akas := some rows })

def runPrincipalsPhase (db : SqliteDB) (valid : List String) (lines : List Row) :
    Except PhaseError SqliteDB :=
  (processPrincipalsRows valid lines).map (fun rows => { db with principals := some rows })

/-- In `pipeline()` each of the three dependent datasets runs its phase
only when its download succeeded (`if "title.x" in files`). -/
def ratingsStep (db : SqliteDB) (valid : List String) :
    Option (List Row) → Except PhaseError SqliteDB
  | none => .ok db
  | some rl => runRatingsPhase db valid rl

def akasStep (db : SqliteDB) (valid : List String) :
    Option (List Row) → Except PhaseError SqliteDB
  | none => .ok db
  | some al => runAkasPhase db valid al

def principalsStep (db : SqliteDB) (valid : List String) :
    Option (List Row) → Except PhaseError SqliteDB
  | none => .ok db
  | some pl => runPrincipalsPhase db valid pl

/-- The `pipeline()` driver (lines 284-328): a missing `title.basics`
aborts before touching any table; each optional dataset that downloaded
runs its phase in order, threading the accepted-id set from phase 1. -/
def pipelineRun (db : SqliteDB) (basics ratings akas principals : Option (List Row)) :
    Except PhaseError SqliteDB :=
  match basics with
  | none => .ok db
  | some bl =>
    Except.bind (ratingsStep (runBasicsPhase db bl).1 (runBasicsPhase db bl).2 ratings)
      (fun db2 => Except.bind (akasStep db2 (runBasicsPhase db bl).2 akas)
        (fun db3 => principalsStep db3 (runBasicsPhase db bl).2 principals))

/-- Concrete title-basics snapshot: 5 rows, 3 whitelisted (`movie`), 2
excluded (`short`). -/
def demoBasics : List Row :=
  [["tt1", "movie", "A", "A", "0", "1990", "\\N", "100", "Drama"],
   ["tt2", "movie", "B", "B", "0", "1991", "\\N", "90", "Comedy"],
   ["tt3", "movie", "C", "C", "0", "1992", "\\N", "80", "Drama"],
   ["tt4", "short", "D", "D", "0", "1993", "\\N", "10", "Short"],
   ["tt5", "short", "E", "E", "0", "1994", "\\N", "12", "Short"]]

/-- Ratings snapshot covering all 5 identifiers of `demoBasics`. -/
def demoRatings : List Row :=
  [["tt1", "8.1", "1000"], ["tt2", "7.0", "500"], ["tt3", "6.5", "200"],
   ["tt4", "5.0", "50"], ["tt5", "4.0", "10"]]

def demoAkas : List Row :=
  [["tt1", "1", "A-alt", "DE", "de", "\\N", "\\N", "0"],
   ["tt4", "1", "D-alt", "DE", "de", "\\N", "\\N", "0"]]

def demoPrincipals : List Row :=
  [["tt2", "1", "nm1", "actor", "\\N", "[\"X\"]"],
   ["tt5", "1", "nm2", "actor", "\\N", "\\N"]]

/-- Counterexample to claim C3: in the ratings phase a malformed row
(2 fields instead of 3) whose identifier was accepted by the titles
phase raises IndexError at `parts[2]` and aborts the phase — it is not
skipped. -/
theorem malformed_row_aborts_ratings_phase :
    processRatingsRows ["tt0000001"] [["tt0000001", "5.0"]]
      = .error PhaseError.indexError := by
  rfl

/-- Claim C3 (amended): in the titles phase an input row with fewer than
the expected 9 fields is skipped silently and processing continues; in
the dependent phases a malformed row is skipped only when its leading
identifier is not in the accepted set, while a row with an accepted
identifier and too few fields aborts the phase (ratings: IndexError at
fewer than 3 fields; akas/principals: a binding-count failure at the
batch insert for fewer than 8/6 fields). -/
theorem malformed_row_handling (valid : List String) (parts : Row) (rest : List Row) :
    (parts.length < 9 → processBasicsRows (parts :: rest) = processBasicsRows rest) ∧
    (parts.headI ∉ valid →
      processRatingsRows valid (parts :: rest) = processRatingsRows valid rest ∧
      processAkasRows valid (parts :: rest) = processAkasRows valid rest ∧
      processPrincipalsRows valid (parts :: rest) = processPrincipalsRows valid rest) ∧
    (parts.headI ∈ valid → parts.length < 3 →
      processRatingsRows valid (parts :: rest) = .error .indexError) ∧
    (parts.headI ∈ valid → parts.length < 8 →
      processAkasRows valid (parts :: rest) = .error .bindingError) ∧
    (parts.headI ∈ valid → parts.length < 6 →
      processPrincipalsRows valid (parts :: rest) = .error .bindingError) := by
  refine ⟨fun h => ?_, fun h => ?_, fun h hlen => ?_, fun h hlen => ?_, fun h hlen => ?_⟩
  · rw [processBasicsRows, if_pos h]
  · rw [processRatingsRows, if_neg h, processAkasRows, if_neg h,
      processPrincipalsRows, if_neg h]
    exact ⟨rfl, rfl, rfl⟩
  · rw [processRatingsRows, if_pos h, if_neg (by omega)]
  · rw [processAkasRows, if_pos h, if_neg (by omega)]
  · rw [processPrincipalsRows, if_pos h, if_neg (by omega)]

/-- Witness for the amended claim C3: a 2-field row is skipped by the
titles phase; the same row with an accepted identifier aborts each
dependent phase. -/
theorem malformed_row_handling_witness :
    processBasicsRows [["tt1", "5.0"]] = processBasicsRows [] ∧
    processRatingsRows ["tt1"] [["tt1", "5.0"]] = .error .indexError ∧
    processAkasRows ["tt1"] [["tt1", "5.0"]] = .error .bindingError ∧
    processPrincipalsRows ["tt1"] [["tt1", "5.0"]] = .error .bindingError :=
  ⟨(malformed_row_handling ["tt1"] ["tt1", "5.0"] []).1 (by decide),
   (malformed_row_handling ["tt1"] ["tt1", "5.0"] []).2.2.1 (by decide) (by decide),
   (malformed_row_handling ["tt1"] ["tt1", "5.0"] []).2.2.2.1 (by decide) (by decide),
   (malformed_row_handling ["tt1"] ["tt1", "5.0"] []).2.2.2.2 (by decide) (by decide)⟩

theorem processRatingsRows_mem (valid : List String) :
    ∀ (lines : List Row) (rrows : List (String × String × String)),
      processRatingsRows valid lines = .ok rrows → ∀ r ∈ rrows, r.1 ∈ valid := by
  intro lines
  induction lines with
  | nil =>
    intro rrows h r hr
    rw [processRatingsRows] at h
    cases h
    simp at hr
  | cons parts rest ih =>
    intro rrows h r hr
    rw [processRatingsRows] at h
    by_cases hv : parts.headI ∈ valid
    · rw [if_pos hv] at h
      by_cases hlen : 3 ≤ parts.length
      · rw [if_pos hlen] at h
        cases hrec : processRatingsRows valid rest with
        | error e => rw [hrec] at h; simp [Except.map] at h
        | ok rs =>
          rw [hrec] at h
          simp only [Except.map, Except.ok.injEq] at h
          subst h
          rcases List.mem_cons.mp hr with h' | h'
          · subst h'; exact hv
          · exact ih rs hrec r h'
      · rw [if_neg hlen] at h; cases h
    · rw [if_neg hv] at h
      exact ih rrows h r hr

theorem processAkasRows_mem (valid : List String) :
    ∀ (lines : List Row) (arows : List (List (Option String))),
      processAkasRows valid lines = .ok arows →
      ∀ row ∈ arows, ∃ t ∈ valid, row.headI = cleanField t := by
  intro lines
  induction lines with
  | nil =>
    intro arows h row hr
    rw [processAkasRows] at h
    cases h
    simp at hr
  | cons parts rest ih =>
    intro arows h row hr
    rw [processAkasRows] at h
    by_cases hv : parts.headI ∈ valid
    · rw [if_pos hv] at h
      by_cases hlen : 8 ≤ parts.length
      · rw [if_pos hlen] at h
        cases hrec : processAkasRows valid rest with
        | error e => rw [hrec] at h; simp [Except.map] at h
        | ok rs =>
          rw [hrec] at h
          simp only [Except.map, Except.ok.injEq] at h
          subst h
          rcases List.mem_cons.mp hr with h' | h'
          · refine ⟨parts.headI, hv, ?_⟩
            subst h'
            match parts, hlen with
            | p0 :: ps, _ => simp [List.headI]
          · exact ih rs hrec row h'
      · rw [if_neg hlen] at h; cases h
    · rw [if_neg hv] at h
      exact ih arows h row hr

theorem processPrincipalsRows_mem (valid : List String) :
    ∀ (lines : List Row) (prows : List (List (Option String))),
      processPrincipalsRows valid lines = .ok prows →
      ∀ row ∈ prows, ∃ t ∈ valid, row.headI = cleanField t := by
  intro lines
  induction lines with
  | nil =>
    intro prows h row hr
    rw [processPrincipalsRows] at h
    cases h
    simp at hr
  | cons parts rest ih =>
    intro prows h row hr
    rw [processPrincipalsRows] at h
    by_cases hv : parts.headI ∈ valid
    · rw [if_pos hv] at h
      by_cases hlen : 6 ≤ parts.length
      · rw [if_pos hlen] at h
        cases hrec : processPrincipalsRows valid rest with
        | error e => rw [hrec] at h; simp [Except.map] at h
        | ok rs =>
          rw [hrec] at h
          simp only [Except.map, Except.ok.injEq] at h
          subst h
          rcases List.mem_cons.mp hr with h' | h'
          · refine ⟨parts.headI, hv, ?_⟩
            subst h'
            match parts, hlen with
            | p0 :: ps, _ => simp [List.headI]
          · exact ih rs hrec row h'
      · rw [if_neg hlen] at h; cases h
    · rw [if_neg hv] at h
      exact ih prows h row hr

/-- Claim C5: every row loaded into a dependent table (ratings, akas,
principals) has its leading identifier in the accepted-identifier set
returned by the titles phase, so no dependent row exists for a title
whose type is outside the whitelist; and importing the 5-row snapshot
with 3 `movie` and 2 `short` rows yields exactly 3 title rows, with a
ratings snapshot over all 5 identifiers yielding exactly 3 rating
rows. -/
theorem dependent_rows_referentially_filtered
    (basicsLines ratingsLines akasLines principalsLines : List Row)
    (rrows : List (String × String × String))
    (arows prows : List (List (Option String)))
    (hr : processRatingsRows (processBasicsRows basicsLines).2 ratingsLines = .ok rrows)
    (ha : processAkasRows (processBasicsRows basicsLines).2 akasLines = .ok arows)
    (hp : processPrincipalsRows (processBasicsRows basicsLines).2 principalsLines = .ok prows) :
    (∀ r ∈ rrows, r.1 ∈ (processBasicsRows basicsLines).2) ∧
    (∀ row ∈ arows, ∃ t ∈ (processBasicsRows basicsLines).2, row.headI = cleanField t) ∧
    (∀ row ∈ prows, ∃ t ∈ (processBasicsRows basicsLines).2, row.headI = cleanField t) ∧
    (processBasicsRows demoBasics).1.length = 3 ∧
    processRatingsRows (processBasicsRows demoBasics).2 demoRatings
      = .ok [("tt1", "8.1", "1000"), ("tt2", "7.0", "500"), ("tt3", "6.5", "200")] := by
  exact ⟨processRatingsRows_mem _ _ _ hr, processAkasRows_mem _ _ _ ha,
    processPrincipalsRows_mem _ _ _ hp, by rfl, by rfl⟩

/-- Witness for claim C5 on the concrete 5-row scenario. -/
theorem dependent_rows_referentially_filtered_witness :
    processRatingsRows (processBasicsRows demoBasics).2 demoRatings
      = .ok [("tt1", "8.1", "1000"), ("tt2", "7.0", "500"), ("tt3", "6.5", "200")] ∧
    processAkasRows (processBasicsRows demoBasics).2 demoAkas
      = .ok [(["tt1", "1", "A-alt", "DE", "de", "\\N", "\\N", "0"].map cleanField)] ∧
    processPrincipalsRows (processBasicsRows demoBasics).2 demoPrincipals
      = .ok [(["tt2", "1", "nm1", "actor", "\\N", "[\"X\"]"].map cleanField)] ∧
    ("tt1", "8.1", "1000").1 ∈ (processBasicsRows demoBasics).2 :=
  ⟨by rfl, by rfl, by rfl,
   (dependent_rows_referentially_filtered demoBasics demoRatings demoAkas demoPrincipals
      _ _ _ (by rfl) (by rfl) (by rfl)).1 ("tt1", "8.1", "1000") (by decide)⟩

/-- Pass a table through unchanged when its dataset is absent, else
replace it with the result of the phase run. -/
def passOrLoad {X : Type} (old : Option X) (files : Option (List Row))
    (run : List Row → Except PhaseError X) : Option X :=
  match files with
  | none => old
  | some fl => (run fl).toOption

theorem passOrLoad_idem {X : Type} (old : Option X) (files : Option (List Row))
    (run : List Row → Except PhaseError X) :
    passOrLoad (passOrLoad old files run) files run = passOrLoad old files run := by
  cases files <;> rfl

theorem exceptBind_ok {ε α β : Type} (x : Except ε α) (f : α → Except ε β) (b : β)
    (h : Except.bind x f = .ok b) : ∃ a, x = .ok a ∧ f a = .ok b := by
  cases x with
  | error e => simp [Except.bind] at h
  | ok a => exact ⟨a, rfl, h⟩

theorem ratingsStep_ok (db : SqliteDB) (valid : List String)
    (ratings : Option (List Row)) (db' : SqliteDB)
    (h : ratingsStep db valid ratings = .ok db') :
    db'.titles = db.titles ∧ db'.akas = db.akas ∧ db'.principals = db.principals ∧
    db'.ratings = passOrLoad db.ratings ratings (processRatingsRows valid) := by
  cases ratings with
  | none => cases h; exact ⟨rfl, rfl, rfl, rfl⟩
  | some rl =>
    rw [ratingsStep, runRatingsPhase] at h
    cases hR : processRatingsRows valid rl with
    | error e => rw [hR] at h; simp [Except.map] at h
    | ok rows =>
      rw [hR] at h
      simp only [Except.map, Except.ok.injEq] at h
      subst h
      exact ⟨rfl, rfl, rfl, by simp [passOrLoad, Except.toOption, hR]⟩

theorem akasStep_ok (db : SqliteDB) (valid : List String)
    (akas : Option (List Row)) (db' : SqliteDB)
    (h : akasStep db valid akas = .ok db') :
    db'.titles = db.titles ∧ db'.ratings = db.ratings ∧ db'.principals = db.principals ∧
    db'.akas = passOrLoad db.akas akas (processAkasRows valid) := by
  cases akas with
  | none => cases h; exact ⟨rfl, rfl, rfl, rfl⟩
  | some al =>
    rw [akasStep, runAkasPhase] at h
    cases hA : processAkasRows valid al with
    | error e => rw [hA] at h; simp [Except.map] at h
    | ok rows =>
      rw [hA] at h
      simp only [Except.map, Except.ok.injEq] at h
      subst h
      exact ⟨rfl, rfl, rfl, by simp [passOrLoad, Except.toOption, hA]⟩

theorem principalsStep_ok (db : SqliteDB) (valid : List String)
    (principals : Option (List Row)) (db' : SqliteDB)
    (h : principalsStep db valid principals = .ok db') :
    db'.titles = db.titles ∧ db'.ratings = db.ratings ∧ db'.akas = db.akas ∧
    db'.principals = passOrLoad db.principals principals (processPrincipalsRows valid) := by
  cases principals with
  | none => cases h; exact ⟨rfl, rfl, rfl, rfl⟩
  | some pl =>
    rw [principalsStep, runPrincipalsPhase] at h
    cases hP : processPrincipalsRows valid pl with
    | error e => rw [hP] at h; simp [Except.map] at h
    | ok rows =>
      rw [hP] at h
      simp only [Except.map, Except.ok.injEq] at h
      subst h
      exact ⟨rfl, rfl, rfl, by simp [passOrLoad, Except.toOption, hP]⟩

/-- Shape of a successful pipeline run: every phase that ran replaced
its table with rows computed from the input files alone; tables whose
dataset was absent pass through from the starting state. -/
theorem pipelineRun_ok_shape (db : SqliteDB) (bl : List Row)
    (ratings akas principals : Option (List Row)) (db' : SqliteDB)
    (h : pipelineRun db (some bl) ratings akas principals = .ok db') :
    db'.titles = some (processBasicsRows bl).1 ∧
    db'.ratings = passOrLoad db.ratings ratings (processRatingsRows (processBasicsRows bl).2) ∧
    db'.akas = passOrLoad db.akas akas (processAkasRows (processBasicsRows bl).2) ∧
    db'.principals
      = passOrLoad db.principals principals (processPrincipalsRows (processBasicsRows bl).2) := by
  rw [pipelineRun] at h
  obtain ⟨db2, h2, h⟩ := exceptBind_ok _ _ _ h
  obtain ⟨db3, h3, h4⟩ := exceptBind_ok _ _ _ h
  obtain ⟨r2t, r2a, r2p, r2r⟩ := ratingsStep_ok _ _ _ _ h2
  obtain ⟨a3t, a3r, a3p, a3a⟩ := akasStep_ok _ _ _ _ h3
  obtain ⟨p4t, p4r, p4a, p4p⟩ := principalsStep_ok _ _ _ _ h4
  have hbt : (runBasicsPhase db bl).1.titles = some (processBasicsRows bl).1 := rfl
  have hbr : (runBasicsPhase db bl).1.ratings = db.ratings := rfl
  have hba : (runBasicsPhase db bl).1.akas = db.akas := rfl
  have hbp : (runBasicsPhase db bl).1.principals = db.principals := rfl
  have hbk : (runBasicsPhase db bl).2 = (processBasicsRows bl).2 := rfl
  rw [hbk] at r2r a3a p4p
  refine ⟨?_, ?_, ?_, ?_⟩
  · rw [p4t, a3t, r2t, hbt]
  · rw [p4r, a3r, r2r, hbr]
  · rw [p4a, a3a, r2a, hba]
  · rw [p4p, a3p, r2p, hbp]

/-- Claim C9: running the bulk importer twice against the same input
file set produces a table snapshot (row contents of the titles,
ratings, akas and principals tables) identical to running it once —
each phase drops and recreates its target table before loading, so
the import is idempotent. -/
theorem import_idempotent (db db1 db2 : SqliteDB)
    (basics ratings akas principals : Option (List Row))
    (h1 : pipelineRun db basics ratings akas principals = .ok db1)
    (h2 : pipelineRun db1 basics ratings akas principals = .ok db2) :
    db2 = db1 := by
  cases basics with
  | none =>
    unfold pipelineRun at h1 h2
    cases h1
    cases h2
    rfl
  | some bl =>
    obtain ⟨t1, r1, a1, p1⟩ := pipelineRun_ok_shape db bl ratings akas principals db1 h1
    obtain ⟨t2, r2, a2, p2⟩ := pipelineRun_ok_shape db1 bl ratings akas principals db2 h2
    cases db1
    cases db2
    simp only at t1 r1 a1 p1 t2 r2 a2 p2
    subst t1 r1 a1 p1 t2 r2 a2 p2
    simp [passOrLoad_idem]

/-- The table snapshot produced by one run of the importer on the demo
files (used to witness claim C9). -/
def demoImportedDB : SqliteDB :=
  { titles := some (processBasicsRows demoBasics).1
    ratings := some [("tt1", "8.1", "1000"), ("tt2", "7.0", "500"), ("tt3", "6.5", "200")]
    akas := some [(["tt1", "1", "A-alt", "DE", "de", "\\N", "\\N", "0"].map cleanField)]
    principals := some [(["tt2", "1", "nm1", "actor", "\\N", "[\"X\"]"].map cleanField)] }

/-- Witness for claim C9: importing the demo snapshot twice yields the
same tables as importing it once. -/
theorem import_idempotent_witness :
    pipelineRun ⟨none, none, none, none⟩
        (some demoBasics) (some demoRatings) (some demoAkas) (some demoPrincipals)
      = .ok demoImportedDB ∧
    pipelineRun demoImportedDB
        (some demoBasics) (some demoRatings) (some demoAkas) (some demoPrincipals)
      = .ok demoImportedDB ∧
    demoImportedDB = demoImportedDB :=
  ⟨by rfl, by rfl,
   import_idempotent ⟨none, none, none, none⟩ demoImportedDB demoImportedDB
     (some demoBasics) (some demoRatings) (some demoAkas) (some demoPrincipals)
     (by rfl) (by rfl)⟩

end ImdbImporter

/-! ## Paginated crawl engine — `api-central/tmdb_importer.py`,
`TMDBImporter.import_media` (lines 197-252)

When no explicit start page is given (`start_page == 1`) and the
persisted `SyncProgress` cursor records `last_page > 0`, the crawl
resumes at `last_page + 1`.  The page loop then walks batches
`[current_page, batch_end)` with `batch_end = min(current_page +
pages_per_batch, max_pages + 1)` while `current_page ≤ min(max_pages,
total_pages_discovered)`, updating `total_pages_discovered` from the
provider's reported total.  The provider's per-batch report is an
oracle; the loop is replayed with fuel (the loop always stops once
`current_page` exceeds `max_pages`, and the requested-page property
holds for every fuel value). -/

namespace TMDBImporter

/-- Resume-point resolution (lines 207-211): `if progress.last_page > 0
and start_page == 1: start_page = progress.last_page + 1`. -/
def resolveStartPage (startPage lastPage : ℕ) : ℕ :=
  if 0 < lastPage ∧ startPage = 1 then lastPage + 1 else startPage

/-- All discovery pages requested by the `while` loop of `import_media`,
given an oracle reporting the provider's total page count for each
requested batch (0 meaning the batch produced no report). -/
def crawlPages (oracle : List ℕ → ℕ) (maxPages batchSize : ℕ) :
    ℕ → ℕ → ℕ → List ℕ
  | 0, _, _ => []
  | fuel + 1, currentPage, totalDiscovered =>
    if currentPage ≤ min maxPages totalDiscovered then
      let batchEnd := min (currentPage + batchSize) (maxPages + 1)
      let pages := List.range' currentPage (batchEnd - currentPage)
      let total := oracle pages
      let totalDiscovered' := if 0 < total then min total maxPages else totalDiscovered
      pages ++ crawlPages oracle maxPages batchSize fuel batchEnd totalDiscovered'
    else []

theorem crawlPages_ge (oracle : List ℕ → ℕ) (maxPages batchSize : ℕ) :
    ∀ (fuel currentPage totalDiscovered : ℕ),
      ∀ p ∈ crawlPages oracle maxPages batchSize fuel currentPage totalDiscovered,
        currentPage ≤ p := by
  intro fuel
  induction fuel with
  | zero => intro currentPage totalDiscovered p hp; simp [crawlPages] at hp
  | succ fuel ih =>
    intro currentPage totalDiscovered p hp
    rw [crawlPages] at hp
    by_cases hc : currentPage ≤ min maxPages totalDiscovered
    · rw [if_pos hc] at hp
      rcases List.mem_append.mp hp with h | h
      · exact (List.mem_range'_1.mp h).1
      · have := ih _ _ p h
        have hle : currentPage ≤ min (currentPage + batchSize) (maxPages + 1) := by
          omega
        omega
    · rw [if_neg hc] at hp
      simp at hp

/-- Claim C6: a crawl started without an explicit start page (start page
1) whose persisted cursor records a last completed page `P > 0` resumes
at page `P + 1`, and every page the resumed crawl requests is strictly
greater than `P` — no page `≤ P` is ever re-requested, for any provider
behaviour, page ceiling, batch size and fuel. -/
theorem crawl_resume_monotonic (P : ℕ) (hP : 0 < P)
    (oracle : List ℕ → ℕ) (maxPages batchSize fuel : ℕ) :
    resolveStartPage 1 P = P + 1 ∧
    ∀ p ∈ crawlPages oracle maxPages batchSize fuel (resolveStartPage 1 P) maxPages,
      P < p := by
  have hstart : resolveStartPage 1 P = P + 1 := by
    rw [resolveStartPage, if_pos ⟨hP, rfl⟩]
  refine ⟨hstart, fun p hp => ?_⟩
  rw [hstart] at hp
  have := crawlPages_ge oracle maxPages batchSize fuel (P + 1) maxPages p hp
  omega

/-- Witness for claim C6: with a cursor at page 7, a ceiling of 10 pages
and 5 pages per batch, the crawl resumes at page 8 and requests only
pages greater than 7. -/
theorem crawl_resume_monotonic_witness :
    0 < 7 ∧ resolveStartPage 1 7 = 8 ∧
    8 ∈ crawlPages (fun _ => 10) 10 5 11 (resolveStartPage 1 7) 10 ∧ 7 < 8 :=
  ⟨by decide, (crawl_resume_monotonic 7 (by decide) (fun _ => 10) 10 5 11).1,
   by decide,
   (crawl_resume_monotonic 7 (by decide) (fun _ => 10) 10 5 11).2 8 (by decide)⟩

end TMDBImporter

/-! ## Filter/discover translator — `backend/services/filter_engine.py`
with `backend/services/tmdb.py` (the provider client and
`normalize_result`)

Filter values are JSON-ish: strings, numbers, booleans, string lists or
null.  `parse_filters` maps each condition through `_build_param_key`
and `FILTER_MAPPING` into a native parameter dict (modelled as an
insertion-ordered association list with in-place update, like a Python
dict).  `discover` fans out to one native query per value combination
when `watch_region` or `with_original_language` carries more than one
value; results are deduplicated by `tmdb_id`, client-side re-sorted and
truncated to 20.  The provider is an oracle from (media type, page,
params) to a response page; the embedding also records the list of
issued native queries. -/

namespace FilterEngine

inductive FVal where
  | s (v : String)
  | n (v : ℚ)
  | b (v : Bool)
  | list (vs : List String)
  | none
deriving DecidableEq, Inhabited

/-- Python truthiness of a filter value (used by `elif value:`). -/
def fvalTruthy : FVal → Bool
  | .s v => !(v == "")
  | .n v => !(v == 0)
  | .b v => v
  | .list vs => !vs.isEmpty
  | .none => false

structure Filter where
  field : String
  op : String
  value : FVal
deriving DecidableEq

/-- The `direct_fields` list of `_build_param_key` (lines 162-170). -/
def directFields : List String :=
  ["with_genres", "without_genres", "with_keywords", "without_keywords",
   "with_cast", "with_crew", "with_people", "with_companies",
   "with_watch_providers", "watch_region", "with_watch_monetization_types",
   "with_original_language", "with_origin_country",
   "with_release_type", "with_status", "with_type", "with_networks",
   "certification", "certification_country",
   "sort_by", "year", "include_adult"]

/-- `_build_param_key` (lines 159-178). -/
def buildParamKey (fieldName op : String) : String :=
  if fieldName ∈ directFields then fieldName
  else if op = "gte" ∨ op = "lte" then fieldName ++ "_" ++ op
  else fieldName

/-- The `FILTER_MAPPING` dict (lines 31-91). -/
def FILTER_MAPPING : List (String × String) :=
  [("vote_average_gte", "vote_average.gte"),
   ("vote_average_lte", "vote_average.lte"),
   ("vote_average", "vote_average.gte"),
   ("vote_count_gte", "vote_count.gte"),
   ("vote_count", "vote_count.gte"),
   ("release_date_gte", "primary_release_date.gte"),
   ("release_date_lte", "primary_release_date.lte"),
   ("year", "primary_release_year"),
   ("first_air_date_gte", "first_air_date.gte"),
   ("first_air_date_lte", "first_air_date.lte"),
   ("first_air_date_year", "first_air_date_year"),
   ("with_genres", "with_genres"),
   ("without_genres", "without_genres"),
   ("with_keywords", "with_keywords"),
   ("without_keywords", "without_keywords"),
   ("with_cast", "with_cast"),
   ("with_crew", "with_crew"),
   ("with_people", "with_people"),
   ("with_companies", "with_companies"),
   ("with_watch_providers", "with_watch_providers"),
   ("watch_region", "watch_region"),
   ("with_original_language", "with_original_language"),
   ("with_origin_country", "with_origin_country"),
   ("with_runtime_gte", "with_runtime.gte"),
   ("with_runtime_lte", "with_runtime.lte"),
   ("with_runtime", "with_runtime.gte"),
   ("with_release_type", "with_release_type"),
   ("with_status", "with_status"),
   ("with_type", "with_type"),
   ("with_networks", "with_networks"),
   ("with_watch_monetization_types", "with_watch_monetization_types"),
   ("certification", "certification"),
   ("certification_gte", "certification.gte"),
   ("certification_lte", "certification.lte"),
   ("certification_country", "certification_country"),
   ("sort_by", "sort_by"),
   ("include_adult", "include_adult"),
   ("include_video", "include_video")]

/-- `FILTER_MAPPING.get(param_key, param_key)`. -/
def filterMapping (k : String) : String :=
  ((FILTER_MAPPING.find? (fun p => p.1 == k)).map Prod.snd).getD k

/-- `params.get(key)` on the final association list. -/
def lookupParam (ps : List (String × FVal)) (k : String) : Option FVal :=
  (ps.find? (fun p => p.1 == k)).map Prod.snd

/-- Update-or-append on an insertion-ordered association list: the
behaviour of `params[tmdb_param] = value` on a Python dict. -/
def setParam (ps : List (String × FVal)) (k : String) (v : FVal) : List (String × FVal) :=
  if ps.any (fun p => p.1 == k) then
    ps.map (fun p => if p.1 == k then (k, v) else p)
  else ps ++ [(k, v)]

/-- One iteration of the `parse_filters` loop: skip null values and an
empty key, join list values with "," under AND and "|" under OR, then
assign the native parameter. -/
def parseStep (operator : String) (ps : List (String × FVal)) (f : Filter) :
    List (String × FVal) :=
  if f.value = .none then ps
  else
    if buildParamKey f.field f.op = "" then ps
    else
      setParam ps (filterMapping (buildParamKey f.field f.op))
        (match f.value with
         | .list vs => .s (String.intercalate (if operator = "and" then "," else "|") vs)
         | v => v)

/-- `parse_filters` (lines 115-157). -/
def parseFilters (fs : List Filter) (operator : String) : List (String × FVal) :=
  fs.foldl (parseStep operator) []

/-- The `SORT_OPTIONS` dict (lines 94-110), with `.get(media_type, [])`
semantics. -/
def sortOptionsFor (mediaType : String) : List String :=
  if mediaType = "movie" then
    ["popularity.desc", "popularity.asc",
     "release_date.desc", "release_date.asc",
     "revenue.desc", "revenue.asc",
     "primary_release_date.desc", "primary_release_date.asc",
     "original_title.asc", "original_title.desc",
     "vote_average.desc", "vote_average.asc",
     "vote_count.desc", "vote_count.asc"]
  else if mediaType = "tv" then
    ["popularity.desc", "popularity.asc",
     "first_air_date.desc", "first_air_date.asc",
     "vote_average.desc", "vote_average.asc",
     "vote_count.desc", "vote_count.asc"]
  else []

/-- `if sort_by and sort_by in self.SORT_OPTIONS.get(media_type, []):
params["sort_by"] = sort_by`. -/
def withSortParam (ps : List (String × FVal)) (mediaType sortBy : String) :
    List (String × FVal) :=
  if sortBy ≠ "" ∧ sortBy ∈ sortOptionsFor mediaType
  then setParam ps "sort_by" (.s sortBy) else ps

/-- Add the validated sort key and the `include_adult` default to a
parameter set (`discover` lines 231-237 and `query_combination` lines
299-302). -/
def finalizeParams (ps : List (String × FVal)) (mediaType sortBy : String) :
    List (String × FVal) :=
  if (withSortParam ps mediaType sortBy).any (fun p => p.1 == "include_adult")
  then withSortParam ps mediaType sortBy
  else setParam (withSortParam ps mediaType sortBy) "include_adult" (.b false)

/-- Raw provider result item (the fields read by `normalize_result`). -/
structure RawItem where
  id : ℕ
  title : Option String
  name : Option String
  originalTitle : Option String
  originalName : Option String
  posterPath : Option String
  backdropPath : Option String
  overview : Option String
  releaseDate : Option String
  firstAirDate : Option String
  voteAverage : Option ℚ
  voteCount : Option ℤ
  popularity : Option ℚ
  genreIds : List ℕ
deriving DecidableEq

structure NormItem where
  tmdbId : ℕ
  mediaType : String
  title : Option String
  originalTitle : Option String
  posterPath : Option String
  backdropPath : Option String
  overview : Option String
  releaseDate : Option String
  voteAverage : Option ℚ
  voteCount : Option ℤ
  popularity : Option ℚ
  genreIds : List ℕ
deriving DecidableEq

/-- Python `a or b` over two optional strings (`None` and `""` are both
falsy). -/
def pyOrStr (a b : Option String) : Option String :=
  match a with
  | some v => if v = "" then b else some v
  | Option.none => b

/-- `TMDBService.normalize_result` (`backend/services/tmdb.py` lines
187-202). -/
def normalizeResult (item : RawItem) (mediaType : String) : NormItem :=
  { tmdbId := item.id
    mediaType := mediaType
    title := pyOrStr item.title item.name
    originalTitle := pyOrStr item.originalTitle item.originalName
    posterPath := item.posterPath
    backdropPath := item.backdropPath
    overview := item.overview
    releaseDate := pyOrStr item.releaseDate item.firstAirDate
    voteAverage := item.voteAverage
    voteCount := item.voteCount
    popularity := item.popularity
    genreIds := item.genreIds }

structure ProviderPage where
  results : List RawItem
  page : ℕ
  totalPages : ℕ
  totalResults : ℕ

structure DiscoverOut where
  results : List NormItem
  page : ℕ
  totalPages : ℕ
  totalResults : ℕ

/-- Substring test, Python's `pat in s`. -/
def strContains (s pat : String) : Bool :=
  s.data.tails.any (fun t => pat.data.isPrefixOf t)

/-- Python's `s.endswith(suffix)`. -/
def strEndsWith (s suf : String) : Bool :=
  suf.data.isSuffixOf s.data

/-- Stable sort by a key, ascending or descending — the semantics of
Python's stable `list.sort(key=..., reverse=...)`; `insertionSort`
with the key-pulled-back relation computes exactly the stable sort. -/
def pySortBy {β : Type} [LinearOrder β] (key : NormItem → β) (rev : Bool)
    (l : List NormItem) : List NormItem :=
  if rev then l.insertionSort (fun a b => key b ≤ key a)
  else l.insertionSort (fun a b => key a ≤ key b)

/-- `_sort_results` (lines 338-351): client-side re-sort of the merged
set, handling only the popularity / vote_average / release_date /
vote_count key families; any other sort key leaves the order
untouched.  A missing key value sorts as the default (0 or "").
Python compares date strings lexicographically by code point, which is
the lexicographic order on the character lists. -/
def sortResults (results : List NormItem) (sortBy : String) : List NormItem :=
  if strContains sortBy "popularity" then
    pySortBy (fun x => x.popularity.getD 0) (strEndsWith sortBy ".desc") results
  else if strContains sortBy "vote_average" then
    pySortBy (fun x => x.voteAverage.getD 0) (strEndsWith sortBy ".desc") results
  else if strContains sortBy "release_date" || strContains sortBy "primary_release_date" then
    pySortBy (fun x => (x.releaseDate.getD "").data) (strEndsWith sortBy ".desc") results
  else if strContains sortBy "vote_count" then
    pySortBy (fun x => x.voteCount.getD 0) (strEndsWith sortBy ".desc") results
  else results

/-- Merge-and-deduplicate by `tmdb_id`, preserving first occurrence
(lines 319-327). -/
def dedupByTmdbId (items : List NormItem) : List NormItem :=
  (items.foldl (fun acc it =>
    if it.tmdbId ∈ acc.2 then acc else (acc.1 ++ [it], it.tmdbId :: acc.2))
    (([] : List NormItem), ([] : List ℕ))).1

/-- Multi-value extraction for one of the two special fields (`discover`
lines 196-214): the first filter with the field name contributes either
its list value or, when truthy, a singleton. -/
def extractMulti (fs : List Filter) (fieldName : String) : List FVal :=
  match fs.find? (fun f => f.field == fieldName) with
  | Option.none => []
  | some f =>
    match f.value with
    | .list vs => vs.map FVal.s
    | v => if fvalTruthy v then [v] else []

/-- `_discover_multi_param` lines 270-279: remove both special fields
from the filter list, then re-add a field whose (passed-in) value list
is a singleton; a field passed as `None` (here `[]`) stays removed. -/
def addBackSingles (base : List Filter) (watchRegions languages : List FVal) :
    List Filter × List FVal × List FVal :=
  let b1 := if watchRegions.length = 1
    then base ++ [⟨"watch_region", "eq", watchRegions.headI⟩] else base
  let wr := if watchRegions.length = 1 then ([] : List FVal) else watchRegions
  let b2 := if languages.length = 1
    then b1 ++ [⟨"with_original_language", "eq", languages.headI⟩] else b1
  let ls := if languages.length = 1 then ([] : List FVal) else languages
  (b2, wr, ls)

/-- Query combinations (lines 282-291). -/
def buildCombos (wr ls : List FVal) : List (List (String × FVal)) :=
  if wr ≠ [] ∧ ls ≠ [] then
    (wr.map (fun r => ls.map (fun l =>
      [("watch_region", r), ("with_original_language", l)]))).flatten
  else if wr ≠ [] then wr.map (fun r => [("watch_region", r)])
  else if ls ≠ [] then ls.map (fun l => [("with_original_language", l)])
  else []

/-- The native parameter set of every query issued by
`_discover_multi_param` (one per combination, lines 293-317). -/
def multiQueryParams (mediaType filterOp sortBy : String) (filters : List Filter)
    (watchRegions languages : List FVal) : List (List (String × FVal)) :=
  (buildCombos
      (addBackSingles (filters.filter (fun f =>
        !(f.field == "watch_region" || f.field == "with_original_language")))
        watchRegions languages).2.1
      (addBackSingles (filters.filter (fun f =>
        !(f.field == "watch_region" || f.field == "with_original_language")))
        watchRegions languages).2.2).map
    (fun combo =>
      finalizeParams
        (parseFilters
          ((addBackSingles (filters.filter (fun f =>
            !(f.field == "watch_region" || f.field == "with_original_language")))
            watchRegions languages).1
            ++ combo.map (fun c => (⟨c.1, "eq", c.2⟩ : Filter)))
          filterOp)
        mediaType sortBy)

/-- The merged, deduplicated result set across all issued queries. -/
def multiMerged (oracle : String → ℕ → List (String × FVal) → ProviderPage)
    (mediaType : String) (page : ℕ) (qs : List (List (String × FVal))) : List NormItem :=
  dedupByTmdbId
    ((qs.map (fun ps => (oracle mediaType page ps).results.map
      (fun it => normalizeResult it mediaType))).flatten)

/-- `_discover_multi_param` (lines 259-336), returning the response page
and the issued queries. -/
def discoverMultiParam (oracle : String → ℕ → List (String × FVal) → ProviderPage)
    (mediaType : String) (filters : List Filter) (filterOp sortBy : String) (page : ℕ)
    (watchRegions languages : List FVal) : DiscoverOut × List (List (String × FVal)) :=
  ({ results := (sortResults
        (multiMerged oracle mediaType page
          (multiQueryParams mediaType filterOp sortBy filters watchRegions languages))
        sortBy).take 20
     page := page
     totalPages := 1
     totalResults := (multiMerged oracle mediaType page
        (multiQueryParams mediaType filterOp sortBy filters watchRegions languages)).length },
   multiQueryParams mediaType filterOp sortBy filters watchRegions languages)

/-- `FilterEngine.discover` (lines 180-257): dispatch to the multi-value
fan-out when either special field has more than one value, else a
single native query. -/
def discover (oracle : String → ℕ → List (String × FVal) → ProviderPage)
    (mediaType : String) (filters : List Filter) (filterOp sortBy : String) (page : ℕ) :
    DiscoverOut × List (List (String × FVal)) :=
  if 1 < (extractMulti filters "watch_region").length
      ∨ 1 < (extractMulti filters "with_original_language").length then
    discoverMultiParam oracle mediaType filters filterOp sortBy page
      (if 1 < (extractMulti filters "watch_region").length
        then extractMulti filters "watch_region" else [])
      (if 1 < (extractMulti filters "with_original_language").length
        then extractMulti filters "with_original_language" else [])
  else
    ({ results := (oracle mediaType page
        (finalizeParams (parseFilters filters filterOp) mediaType sortBy)).results.map
          (fun it => normalizeResult it mediaType)
       page := (oracle mediaType page
        (finalizeParams (parseFilters filters filterOp) mediaType sortBy)).page
       totalPages := (oracle mediaType page
        (finalizeParams (parseFilters filters filterOp) mediaType sortBy)).totalPages
       totalResults := (oracle mediaType page
        (finalizeParams (parseFilters filters filterOp) mediaType sortBy)).totalResults },
     [finalizeParams (parseFilters filters filterOp) mediaType sortBy])

/-- Two watch regions plus one original language, the C7/C8/C10
scenario. -/
def demoMultiFilters : List Filter :=
  [⟨"watch_region", "in", .list ["DE", "US"]⟩,
   ⟨"with_original_language", "eq", .s "en"⟩]

def demoRawB : RawItem :=
  { id := 1, title := some "B", name := Option.none, originalTitle := some "B",
    originalName := Option.none, posterPath := Option.none, backdropPath := Option.none,
    overview := Option.none, releaseDate := some "2001-01-01", firstAirDate := Option.none,
    voteAverage := some 7, voteCount := some 100, popularity := some 5, genreIds := [] }

def demoRawA : RawItem :=
  { id := 2, title := some "A", name := Option.none, originalTitle := some "A",
    originalName := Option.none, posterPath := Option.none, backdropPath := Option.none,
    overview := Option.none, releaseDate := some "2002-01-01", firstAirDate := Option.none,
    voteAverage := some 8, voteCount := some 50, popularity := some 9, genreIds := [] }

/-- A provider oracle: the DE-region query returns item B, every other
query returns item A. -/
def demoOracle : String → ℕ → List (String × FVal) → ProviderPage :=
  fun _ _ ps =>
    if ps.any (fun p => p == ("watch_region", FVal.s "DE")) then
      { results := [demoRawB], page := 1, totalPages := 3, totalResults := 55 }
    else
      { results := [demoRawA], page := 1, totalPages := 2, totalResults := 31 }

/-- Claim C10: whenever a discover call takes the multi-value fan-out
path, the returned page has at most 20 results, always reports
`total_pages = 1`, and reports `total_results` equal to the size of the
merged deduplicated set, regardless of the provider's actual page
counts for the individual combination queries. -/
theorem multi_path_page_shape (oracle : String → ℕ → List (String × FVal) → ProviderPage)
    (mediaType filterOp sortBy : String) (page : ℕ) (filters : List Filter)
    (hmulti : 1 < (extractMulti filters "watch_region").length
      ∨ 1 < (extractMulti filters "with_original_language").length) :
    (discover oracle mediaType filters filterOp sortBy page).1.results.length ≤ 20 ∧
    (discover oracle mediaType filters filterOp sortBy page).1.totalPages = 1 ∧
    (discover oracle mediaType filters filterOp sortBy page).1.totalResults
      = (multiMerged oracle mediaType page
          (multiQueryParams mediaType filterOp sortBy filters
            (if 1 < (extractMulti filters "watch_region").length
              then extractMulti filters "watch_region" else [])
            (if 1 < (extractMulti filters "with_original_language").length
              then extractMulti filters "with_original_language" else []))).length := by
  rw [discover, if_pos hmulti]
  exact ⟨List.length_take_le _ _, rfl, rfl⟩

/-- Witness for claim C10 on the 2-region/1-language scenario. -/
theorem multi_path_page_shape_witness :
    (1 < (extractMulti demoMultiFilters "watch_region").length
      ∨ 1 < (extractMulti demoMultiFilters "with_original_language").length) ∧
    (discover demoOracle "movie" demoMultiFilters "and" "popularity.desc" 1).1.results.length ≤ 20 ∧
    (discover demoOracle "movie" demoMultiFilters "and" "popularity.desc" 1).1.totalPages = 1 :=
  ⟨by decide,
   (multi_path_page_shape demoOracle "movie" "and" "popularity.desc" 1 demoMultiFilters
      (by decide)).1,
   (multi_path_page_shape demoOracle "movie" "and" "popularity.desc" 1 demoMultiFilters
      (by decide)).2.1⟩

theorem append_sep_op_ne (s o target : String)
    (ho : o = "gte" ∨ o = "lte")
    (htar : target = "watch_region" ∨ target = "with_original_language") :
    s ++ "_" ++ o ≠ target := by
  intro h
  have hd : s.data ++ ("_".data ++ o.data) = target.data := by
    have := congrArg String.data h
    rwa [String.data_append, String.data_append, List.append_assoc] at this
  rcases ho with ho | ho <;> rcases htar with htar | htar <;> subst ho <;> subst htar
  · have hsplit : ("watch_region" : String).data = ("watch_re" : String).data ++ ("gion" : String).data := rfl
    rw [hsplit] at hd
    exact absurd (List.append_inj_right' hd (by rfl)) (by decide)
  · have hsplit : ("with_original_language" : String).data
      = ("with_original_lang" : String).data ++ ("uage" : String).data := rfl
    rw [hsplit] at hd
    exact absurd (List.append_inj_right' hd (by rfl)) (by decide)
  · have hsplit : ("watch_region" : String).data = ("watch_re" : String).data ++ ("gion" : String).data := rfl
    rw [hsplit] at hd
    exact absurd (List.append_inj_right' hd (by rfl)) (by decide)
  · have hsplit : ("with_original_language" : String).data
      = ("with_original_lang" : String).data ++ ("uage" : String).data := rfl
    rw [hsplit] at hd
    exact absurd (List.append_inj_right' hd (by rfl)) (by decide)

/-- Only the special field itself can produce its native parameter key
through `_build_param_key`. -/
theorem buildParamKey_special (f o target : String)
    (htar : target = "watch_region" ∨ target = "with_original_language")
    (h : buildParamKey f o = target) : f = target := by
  rw [buildParamKey] at h
  by_cases hd : f ∈ directFields
  · rwa [if_pos hd] at h
  · rw [if_neg hd] at h
    by_cases hop : o = "gte" ∨ o = "lte"
    · rw [if_pos hop] at h
      exact absurd h (append_sep_op_ne f o target hop htar)
    · rwa [if_neg hop] at h

/-- Only the special key maps to itself through `FILTER_MAPPING`. -/
theorem filterMapping_special (k target : String)
    (htar : target = "watch_region" ∨ target = "with_original_language")
    (h : filterMapping k = target) : k = target := by
  rw [filterMapping] at h
  cases hf : FILTER_MAPPING.find? (fun p => p.1 == k) with
  | none => rw [hf] at h; exact h
  | some p =>
    rw [hf] at h
    simp only [Option.map, Option.getD] at h
    have hmem : p ∈ FILTER_MAPPING := List.mem_of_find?_eq_some hf
    have hpk : p.1 = k := by
      have := List.find?_some hf
      simpa using this
    have key : ∀ q ∈ FILTER_MAPPING, q.2 = target → q.1 = target := by
      rcases htar with htar | htar <;> subst htar <;> decide
    rw [← hpk]
    exact key p hmem h

theorem setParam_mem (ps : List (String × FVal)) (k : String) (v : FVal) :
    ∀ p ∈ setParam ps k v, p.1 = k ∨ p ∈ ps := by
  intro p hp
  rw [setParam] at hp
  by_cases h : ps.any (fun q => q.1 == k)
  · rw [if_pos h] at hp
    obtain ⟨q, hq, hque⟩ := List.mem_map.mp hp
    by_cases hqk : q.1 == k
    · rw [if_pos hqk] at hque
      left
      rw [← hque]
    · rw [if_neg hqk] at hque
      right
      rwa [← hque]
  · rw [if_neg h] at hp
    rcases List.mem_append.mp hp with h' | h'
    · right; exact h'
    · left
      rw [List.mem_singleton.mp h']


theorem parseFilters_loop_keys (operator k : String) :
    ∀ (fs : List Filter) (acc : List (String × FVal)),
      (∀ f ∈ fs, filterMapping (buildParamKey f.field f.op) ≠ k) →
      (∀ p ∈ acc, p.1 ≠ k) →
      ∀ p ∈ fs.foldl (parseStep operator) acc, p.1 ≠ k := by
  intro fs
  induction fs with
  | nil => intro acc _ hacc p hp; exact hacc p hp
  | cons f fs ih =>
    intro acc hf hacc p hp
    rw [List.foldl_cons] at hp
    refine ih (parseStep operator acc f) (fun g hg => hf g (List.mem_cons_of_mem _ hg)) ?_ p hp
    intro q hq
    rw [parseStep] at hq
    by_cases h1 : f.value = .none
    · rw [if_pos h1] at hq; exact hacc q hq
    · rw [if_neg h1] at hq
      by_cases h2 : buildParamKey f.field f.op = ""
      · rw [if_pos h2] at hq; exact hacc q hq
      · rw [if_neg h2] at hq
        rcases setParam_mem _ _ _ q hq with h' | h'
        · rw [h']; exact hf f (List.mem_cons_self _ _)
        · exact hacc q h'

theorem parseFilters_keys (fs : List Filter) (operator k : String)
    (hf : ∀ f ∈ fs, filterMapping (buildParamKey f.field f.op) ≠ k) :
    ∀ p ∈ parseFilters fs operator, p.1 ≠ k :=
  fun p hp => parseFilters_loop_keys operator k fs [] hf (by simp) p hp

theorem finalizeParams_keys (ps : List (String × FVal)) (mediaType sortBy k : String)
    (hk1 : k ≠ "sort_by") (hk2 : k ≠ "include_adult")
    (hps : ∀ p ∈ ps, p.1 ≠ k) :
    ∀ p ∈ finalizeParams ps mediaType sortBy, p.1 ≠ k := by
  have hsort : ∀ p ∈ withSortParam ps mediaType sortBy, p.1 ≠ k := by
    intro p hp
    rw [withSortParam] at hp
    by_cases h : sortBy ≠ "" ∧ sortBy ∈ sortOptionsFor mediaType
    · rw [if_pos h] at hp
      rcases setParam_mem _ _ _ p hp with h' | h'
      · rw [h']; exact hk1.symm
      · exact hps p h'
    · rw [if_neg h] at hp; exact hps p hp
  intro p hp
  rw [finalizeParams] at hp
  by_cases h : (withSortParam ps mediaType sortBy).any (fun p => p.1 == "include_adult")
  · rw [if_pos h] at hp; exact hsort p hp
  · rw [if_neg h] at hp
    rcases setParam_mem _ _ _ p hp with h' | h'
    · rw [h']; exact hk2.symm
    · exact hsort p h'

theorem mapped_key_ne_special (f : Filter) (target : String)
    (htar : target = "watch_region" ∨ target = "with_original_language")
    (hfield : f.field ≠ target) :
    filterMapping (buildParamKey f.field f.op) ≠ target := fun h =>
  hfield (buildParamKey_special f.field f.op target htar (filterMapping_special _ target htar h))

theorem baseFilter_fields (filters : List Filter) :
    ∀ f ∈ filters.filter (fun f =>
        !(f.field == "watch_region" || f.field == "with_original_language")),
      f.field ≠ "watch_region" ∧ f.field ≠ "with_original_language" := by
  intro f hf
  have h := (List.mem_filter.mp hf).2
  simpa using h

theorem addBackSingles_snds (base : List Filter) (wr ls : List FVal) :
    (addBackSingles base wr ls).2.1 = (if wr.length = 1 then [] else wr) ∧
    (addBackSingles base wr ls).2.2 = (if ls.length = 1 then [] else ls) :=
  ⟨rfl, rfl⟩

theorem addBackSingles_fst_fields (base : List Filter) (wr ls : List FVal)
    (target : String)
    (hbase : ∀ f ∈ base, f.field ≠ target)
    (hwr : target ≠ "watch_region" ∨ wr.length ≠ 1)
    (hls : target ≠ "with_original_language" ∨ ls.length ≠ 1) :
    ∀ f ∈ (addBackSingles base wr ls).1, f.field ≠ target := by
  intro f hf
  simp only [addBackSingles] at hf
  by_cases h1 : wr.length = 1 <;> by_cases h2 : ls.length = 1 <;>
    simp only [h1, h2, if_pos, if_neg, if_true, if_false] at hf
  · rcases (List.mem_append.mp hf) with h | h
    · rcases List.mem_append.mp h with h' | h'
      · exact hbase f h'
      · rw [List.mem_singleton.mp h']
        rcases hwr with h'' | h''
        · exact fun he => h'' he.symm
        · exact absurd h1 h''
    · rw [List.mem_singleton.mp h]
      rcases hls with h'' | h''
      · exact fun he => h'' he.symm
      · exact absurd h2 h''
  · rcases List.mem_append.mp hf with h | h
    · exact hbase f h
    · rw [List.mem_singleton.mp h]
      rcases hwr with h'' | h''
      · exact fun he => h'' he.symm
      · exact absurd h1 h''
  · rcases List.mem_append.mp hf with h | h
    · exact hbase f h
    · rw [List.mem_singleton.mp h]
      rcases hls with h'' | h''
      · exact fun he => h'' he.symm
      · exact absurd h2 h''
  · exact hbase f hf

theorem buildCombos_fields_left (wr : List FVal) :
    ∀ combo ∈ buildCombos wr [], ∀ c ∈ combo, c.1 = "watch_region" := by
  intro combo hcombo c hc
  rw [buildCombos] at hcombo
  rw [if_neg (by simp)] at hcombo
  by_cases h2 : wr ≠ []
  · rw [if_pos h2] at hcombo
    obtain ⟨r, _, hr⟩ := List.mem_map.mp hcombo
    rw [← hr] at hc
    rw [List.mem_singleton.mp hc]
  · rw [if_neg h2, if_neg (by simp)] at hcombo
    simp at hcombo

theorem buildCombos_fields_right (ls : List FVal) :
    ∀ combo ∈ buildCombos [] ls, ∀ c ∈ combo, c.1 = "with_original_language" := by
  intro combo hcombo c hc
  rw [buildCombos] at hcombo
  rw [if_neg (by simp)] at hcombo
  rw [if_neg (by simp)] at hcombo
  by_cases h2 : ls ≠ []
  · rw [if_pos h2] at hcombo
    obtain ⟨l, _, hl⟩ := List.mem_map.mp hcombo
    rw [← hl] at hc
    rw [List.mem_singleton.mp hc]
  · rw [if_neg h2] at hcombo
    simp at hcombo

/-- When the languages argument is `None` (empty), no issued query
carries a `with_original_language` parameter. -/
theorem multiQueryParams_lang_dropped (mediaType filterOp sortBy : String)
    (filters : List Filter) (wr : List FVal) :
    ∀ ps ∈ multiQueryParams mediaType filterOp sortBy filters wr [],
      ∀ p ∈ ps, p.1 ≠ "with_original_language" := by
  intro ps hps p hp
  rw [multiQueryParams] at hps
  obtain ⟨combo, hcombo, hpseq⟩ := List.mem_map.mp hps
  rw [← hpseq] at hp
  refine finalizeParams_keys _ _ _ _ (by decide) (by decide) ?_ p hp
  apply parseFilters_keys
  intro f hf
  rcases List.mem_append.mp hf with h | h
  · refine mapped_key_ne_special f _ (Or.inr rfl) ?_
    refine addBackSingles_fst_fields _ wr [] _ ?_ (Or.inl (by decide)) (Or.inr (by simp)) f h
    exact fun g hg => (baseFilter_fields filters g hg).2
  · obtain ⟨c, hc, hceq⟩ := List.mem_map.mp h
    have h22 : (addBackSingles (filters.filter (fun f =>
        !(f.field == "watch_region" || f.field == "with_original_language")))
        wr []).2.2 = [] := by
      rw [(addBackSingles_snds _ _ _).2]
      simp
    rw [h22] at hcombo
    have := buildCombos_fields_left _ combo hcombo c hc
    refine mapped_key_ne_special f _ (Or.inr rfl) ?_
    rw [← hceq]
    simp only
    rw [this]
    decide

/-- When the regions argument is `None` (empty), no issued query carries
a `watch_region` parameter. -/
theorem multiQueryParams_region_dropped (mediaType filterOp sortBy : String)
    (filters : List Filter) (ls : List FVal) :
    ∀ ps ∈ multiQueryParams mediaType filterOp sortBy filters [] ls,
      ∀ p ∈ ps, p.1 ≠ "watch_region" := by
  intro ps hps p hp
  rw [multiQueryParams] at hps
  obtain ⟨combo, hcombo, hpseq⟩ := List.mem_map.mp hps
  rw [← hpseq] at hp
  refine finalizeParams_keys _ _ _ _ (by decide) (by decide) ?_ p hp
  apply parseFilters_keys
  intro f hf
  rcases List.mem_append.mp hf with h | h
  · refine mapped_key_ne_special f _ (Or.inl rfl) ?_
    refine addBackSingles_fst_fields _ [] ls _ ?_ (Or.inr (by simp)) (Or.inl (by decide)) f h
    exact fun g hg => (baseFilter_fields filters g hg).1
  · obtain ⟨c, hc, hceq⟩ := List.mem_map.mp h
    have h21 : (addBackSingles (filters.filter (fun f =>
        !(f.field == "watch_region" || f.field == "with_original_language")))
        [] ls).2.1 = [] := by
      rw [(addBackSingles_snds _ _ _).1]
      simp
    rw [h21] at hcombo
    have := buildCombos_fields_right _ combo hcombo c hc
    refine mapped_key_ne_special f _ (Or.inl rfl) ?_
    rw [← hceq]
    simp only
    rw [this]
    decide

/-- Claim C8: in a discover call where one of the two special
multi-valued fields (`watch_region`, `with_original_language`) has more
than one value while the other has exactly one, the single-valued
field's constraint is dropped entirely — none of the issued native
queries contains that parameter. -/
theorem single_value_constraint_dropped
    (oracle : String → ℕ → List (String × FVal) → ProviderPage)
    (mediaType filterOp sortBy : String) (page : ℕ) (filters : List Filter) :
    (1 < (extractMulti filters "watch_region").length →
      (extractMulti filters "with_original_language").length = 1 →
      ∀ ps ∈ (discover oracle mediaType filters filterOp sortBy page).2,
        ∀ p ∈ ps, p.1 ≠ "with_original_language") ∧
    (1 < (extractMulti filters "with_original_language").length →
      (extractMulti filters "watch_region").length = 1 →
      ∀ ps ∈ (discover oracle mediaType filters filterOp sortBy page).2,
        ∀ p ∈ ps, p.1 ≠ "watch_region") := by
  constructor
  · intro hr hl ps hps p hp
    rw [discover, if_pos (Or.inl hr), if_pos hr, if_neg (by omega)] at hps
    exact multiQueryParams_lang_dropped mediaType filterOp sortBy filters _ ps hps p hp
  · intro hl hr ps hps p hp
    rw [discover, if_pos (Or.inr hl), if_neg (by omega), if_pos hl] at hps
    exact multiQueryParams_region_dropped mediaType filterOp sortBy filters _ ps hps p hp

/-- The first native query issued in the 2-region/1-language demo
scenario: the language constraint is absent. -/
def demoFirstQuery : List (String × FVal) :=
  [("watch_region", FVal.s "DE"), ("sort_by", FVal.s "popularity.desc"),
   ("include_adult", FVal.b false)]

/-- Witness for claim C8 on the 2-region/1-language scenario. -/
theorem single_value_constraint_dropped_witness :
    demoFirstQuery ∈ (discover demoOracle "movie" demoMultiFilters "and" "popularity.desc" 1).2 ∧
    ("watch_region", FVal.s "DE") ∈ demoFirstQuery ∧
    (("watch_region", FVal.s "DE") : String × FVal).1 ≠ "with_original_language" :=
  ⟨by decide, by decide,
   (single_value_constraint_dropped demoOracle "movie" "and" "popularity.desc" 1
      demoMultiFilters).1 (by decide) (by decide) demoFirstQuery (by decide)
      ("watch_region", FVal.s "DE") (by decide)⟩

theorem map_find_self (ps : List (String × FVal)) (k : String) (v : FVal)
    (h : ps.any (fun p => p.1 == k) = true) :
    (ps.map (fun p => if p.1 == k then (k, v) else p)).find? (fun p => p.1 == k)
      = some (k, v) := by
  induction ps with
  | nil => simp at h
  | cons q ps ih =>
    by_cases hq : (q.1 == k) = true
    · simp only [List.map_cons, if_pos hq, List.find?]
      simp
    · have hqf : (q.1 == k) = false := by simpa using hq
      have h' : ps.any (fun p => p.1 == k) = true := by
        rcases List.any_eq_true.mp h with ⟨q', hq', hq'k⟩
        rcases List.mem_cons.mp hq' with rfl | hmem
        · exact absurd hq'k hq
        · exact List.any_eq_true.mpr ⟨q', hmem, hq'k⟩
      simp only [List.map_cons, if_neg hq]
      simp only [List.find?, hqf]
      exact ih h'

theorem append_find_self (ps : List (String × FVal)) (k : String) (v : FVal)
    (h : ps.any (fun p => p.1 == k) = false) :
    (ps ++ [(k, v)]).find? (fun p => p.1 == k) = some (k, v) := by
  induction ps with
  | nil => simp
  | cons q ps ih =>
    rw [List.any_cons] at h
    have hq : (q.1 == k) = false := by
      cases hqv : q.1 == k
      · rfl
      · rw [hqv] at h; simp at h
    have h' : ps.any (fun p => p.1 == k) = false := by
      cases hav : ps.any (fun p => p.1 == k)
      · rfl
      · rw [hav] at h; simp at h
    rw [List.cons_append]
    simp only [List.find?, hq]
    exact ih h'

theorem map_find_other (ps : List (String × FVal)) (k k' : String) (v : FVal)
    (hne : k ≠ k') :
    (ps.map (fun p => if p.1 == k then (k, v) else p)).find? (fun p => p.1 == k')
      = ps.find? (fun p => p.1 == k') := by
  induction ps with
  | nil => rfl
  | cons q ps ih =>
    by_cases hq : (q.1 == k) = true
    · have hqk : q.1 = k := by simpa using hq
      have hne1 : ((k : String) == k') = false := by simpa using hne
      have hne2 : (q.1 == k') = false := by rw [hqk]; exact hne1
      simp only [List.map_cons, if_pos hq, List.find?, hne1, hne2]
      exact ih
    · simp only [List.map_cons, if_neg hq, List.find?]
      cases hq' : (q.1 == k')
      · exact ih
      · rfl

theorem append_find_other (ps : List (String × FVal)) (k k' : String) (v : FVal)
    (hne : k ≠ k') :
    (ps ++ [(k, v)]).find? (fun p => p.1 == k') = ps.find? (fun p => p.1 == k') := by
  induction ps with
  | nil =>
    have hne1 : ((k : String) == k') = false := by simpa using hne
    simp [List.find?, hne1]
  | cons q ps ih =>
    rw [List.cons_append]
    simp only [List.find?]
    cases hq' : (q.1 == k')
    · exact ih
    · rfl

theorem setParam_find_self (ps : List (String × FVal)) (k : String) (v : FVal) :
    (setParam ps k v).find? (fun p => p.1 == k) = some (k, v) := by
  rw [setParam]
  by_cases h : ps.any (fun p => p.1 == k)
  · rw [if_pos h]; exact map_find_self ps k v h
  · rw [if_neg h]
    exact append_find_self ps k v (by cases hav : ps.any (fun p => p.1 == k) <;> simp_all)

theorem setParam_find_other (ps : List (String × FVal)) (k k' : String) (v : FVal)
    (hne : k ≠ k') :
    (setParam ps k v).find? (fun p => p.1 == k') = ps.find? (fun p => p.1 == k') := by
  rw [setParam]
  by_cases h : ps.any (fun p => p.1 == k)
  · rw [if_pos h]; exact map_find_other ps k k' v hne
  · rw [if_neg h]; exact append_find_other ps k k' v hne

theorem extractMulti_vals (fs : List Filter) (name : String) :
    ∀ v ∈ extractMulti fs name, v ≠ .none ∧ ∀ vs, v ≠ .list vs := by
  intro v hv
  cases hfind : fs.find? (fun f => f.field == name) with
  | none => simp [extractMulti, hfind] at hv
  | some f =>
    cases hval : f.value with
    | list vs =>
      simp only [extractMulti, hfind, hval] at hv
      obtain ⟨w, _, rfl⟩ := List.mem_map.mp hv
      exact ⟨by simp, fun vs' => by simp⟩
    | s w =>
      simp only [extractMulti, hfind, hval] at hv
      by_cases ht : fvalTruthy (FVal.s w) = true
      · rw [if_pos ht] at hv
        rw [List.mem_singleton.mp hv]
        exact ⟨by simp, fun vs' => by simp⟩
      · rw [if_neg ht] at hv; simp at hv
    | n w =>
      simp only [extractMulti, hfind, hval] at hv
      by_cases ht : fvalTruthy (FVal.n w) = true
      · rw [if_pos ht] at hv
        rw [List.mem_singleton.mp hv]
        exact ⟨by simp, fun vs' => by simp⟩
      · rw [if_neg ht] at hv; simp at hv
    | b w =>
      simp only [extractMulti, hfind, hval] at hv
      by_cases ht : fvalTruthy (FVal.b w) = true
      · rw [if_pos ht] at hv
        rw [List.mem_singleton.mp hv]
        exact ⟨by simp, fun vs' => by simp⟩
      · rw [if_neg ht] at hv; simp at hv
    | none =>
      simp only [extractMulti, hfind, hval] at hv
      rw [if_neg (by simp [fvalTruthy])] at hv
      simp at hv

theorem parseFilters_append_last (fs : List Filter) (operator : String) (f : Filter) :
    parseFilters (fs ++ [f]) operator = parseStep operator (parseFilters fs operator) f := by
  rw [parseFilters, parseFilters, List.foldl_append, List.foldl_cons, List.foldl_nil]

theorem parseStep_special (operator : String) (ps : List (String × FVal))
    (fieldName : String) (hdf : fieldName ∈ directFields) (hne : fieldName ≠ "")
    (hmap : filterMapping fieldName = fieldName)
    (r : FVal) (hr1 : r ≠ .none) (hr2 : ∀ vs, r ≠ .list vs) :
    parseStep operator ps ⟨fieldName, "eq", r⟩ = setParam ps fieldName r := by
  have hbk : buildParamKey fieldName "eq" = fieldName := by
    rw [buildParamKey, if_pos hdf]
  cases r with
  | list vs => exact absurd rfl (hr2 vs)
  | s w =>
    rw [parseStep]
    simp only
    rw [if_neg hr1, hbk, if_neg hne, hmap]
  | n w =>
    rw [parseStep]
    simp only
    rw [if_neg hr1, hbk, if_neg hne, hmap]
  | b w =>
    rw [parseStep]
    simp only
    rw [if_neg hr1, hbk, if_neg hne, hmap]
  | none => exact absurd rfl hr1

theorem finalize_find_preserved (ps : List (String × FVal)) (mediaType sortBy k : String)
    (hk1 : k ≠ "sort_by") (hk2 : k ≠ "include_adult") :
    (finalizeParams ps mediaType sortBy).find? (fun p => p.1 == k)
      = ps.find? (fun p => p.1 == k) := by
  simp only [finalizeParams, withSortParam]
  by_cases h1 : sortBy ≠ "" ∧ sortBy ∈ sortOptionsFor mediaType
  · rw [if_pos h1]
    by_cases h2 : (setParam ps "sort_by" (.s sortBy)).any (fun p => p.1 == "include_adult")
    · rw [if_pos h2, setParam_find_other _ _ _ _ (Ne.symm hk1)]
    · rw [if_neg h2, setParam_find_other _ _ _ _ (Ne.symm hk2),
        setParam_find_other _ _ _ _ (Ne.symm hk1)]
  · rw [if_neg h1]
    by_cases h2 : ps.any (fun p => p.1 == "include_adult")
    · rw [if_pos h2]
    · rw [if_neg h2, setParam_find_other _ _ _ _ (Ne.symm hk2)]

/-- A query built from base filters plus a trailing special-field
condition carries that field's value as its native parameter (the last
dict assignment wins). -/
theorem query_param_value (base : List Filter) (operator mediaType sortBy fieldName : String)
    (r : FVal)
    (hdf : fieldName ∈ directFields) (hne : fieldName ≠ "")
    (hmap : filterMapping fieldName = fieldName)
    (hk1 : fieldName ≠ "sort_by") (hk2 : fieldName ≠ "include_adult")
    (hr1 : r ≠ .none) (hr2 : ∀ vs, r ≠ .list vs) :
    lookupParam (finalizeParams (parseFilters (base ++ [⟨fieldName, "eq", r⟩]) operator)
      mediaType sortBy) fieldName = some r := by
  rw [lookupParam, finalize_find_preserved _ _ _ _ hk1 hk2, parseFilters_append_last,
    parseStep_special operator _ fieldName hdf hne hmap r hr1 hr2, setParam_find_self]
  rfl

theorem multiQueryParams_two_regions (mediaType filterOp sortBy : String)
    (filters : List Filter) (r1 r2 : FVal) :
    multiQueryParams mediaType filterOp sortBy filters [r1, r2] []
      = [finalizeParams (parseFilters ((filters.filter (fun f =>
            !(f.field == "watch_region" || f.field == "with_original_language")))
            ++ [⟨"watch_region", "eq", r1⟩]) filterOp) mediaType sortBy,
         finalizeParams (parseFilters ((filters.filter (fun f =>
            !(f.field == "watch_region" || f.field == "with_original_language")))
            ++ [⟨"watch_region", "eq", r2⟩]) filterOp) mediaType sortBy] := rfl

theorem dedup_loop_nodup :
    ∀ (items : List NormItem) (acc : List NormItem × List ℕ),
      (acc.1.map (fun x => x.tmdbId)).Nodup →
      (∀ i ∈ acc.1.map (fun x => x.tmdbId), i ∈ acc.2) →
      (((items.foldl (fun acc it => if it.tmdbId ∈ acc.2 then acc
          else (acc.1 ++ [it], it.tmdbId :: acc.2)) acc).1).map
        (fun x => x.tmdbId)).Nodup := by
  intro items
  induction items with
  | nil => intro acc h _; exact h
  | cons it items ih =>
    intro acc h1 h2
    rw [List.foldl_cons]
    by_cases hmem : it.tmdbId ∈ acc.2
    · rw [if_pos hmem]
      exact ih acc h1 h2
    · rw [if_neg hmem]
      refine ih _ ?_ ?_
      · rw [List.map_append]
        refine List.Nodup.append h1 (by simp) ?_
        intro i hi hi'
        have heq : i = it.tmdbId := by simpa using hi'
        rw [heq] at hi
        exact hmem (h2 _ hi)
      · intro i hi
        rw [List.map_append] at hi
        rcases List.mem_append.mp hi with h' | h'
        · exact List.mem_cons_of_mem _ (h2 _ h')
        · have heq : i = it.tmdbId := by simpa using h'
          rw [heq]
          exact List.mem_cons_self _ _

theorem dedup_ids_nodup (items : List NormItem) :
    ((dedupByTmdbId items).map (fun x => x.tmdbId)).Nodup :=
  dedup_loop_nodup items ([], []) (by simp) (by simp)

theorem pySortBy_perm {β : Type} [LinearOrder β] (key : NormItem → β) (rev : Bool)
    (l : List NormItem) : (pySortBy key rev l).Perm l := by
  rw [pySortBy]
  cases rev
  · rw [if_neg (by simp)]; exact List.perm_insertionSort _ l
  · rw [if_pos rfl]; exact List.perm_insertionSort _ l

theorem sortResults_perm (l : List NormItem) (sortBy : String) :
    (sortResults l sortBy).Perm l := by
  rw [sortResults]
  by_cases g1 : strContains sortBy "popularity" = true
  · rw [if_pos g1]; exact pySortBy_perm _ _ _
  · rw [if_neg g1]
    by_cases g2 : strContains sortBy "vote_average" = true
    · rw [if_pos g2]; exact pySortBy_perm _ _ _
    · rw [if_neg g2]
      by_cases g3 : (strContains sortBy "release_date"
          || strContains sortBy "primary_release_date") = true
      · rw [if_pos g3]; exact pySortBy_perm _ _ _
      · rw [if_neg g3]
        by_cases g4 : strContains sortBy "vote_count" = true
        · rw [if_pos g4]; exact pySortBy_perm _ _ _
        · rw [if_neg g4]

theorem pySortBy_sorted_desc {β : Type} [LinearOrder β] (key : NormItem → β)
    (l : List NormItem) :
    (pySortBy key true l).Sorted (fun a b => key b ≤ key a) := by
  rw [pySortBy, if_pos rfl]
  haveI : IsTotal NormItem (fun a b => key b ≤ key a) := ⟨fun a b => le_total _ _⟩
  haveI : IsTrans NormItem (fun a b => key b ≤ key a) :=
    ⟨fun a b c h1 h2 => le_trans h2 h1⟩
  exact List.sorted_insertionSort _ l

theorem pySortBy_sorted_asc {β : Type} [LinearOrder β] (key : NormItem → β)
    (l : List NormItem) :
    (pySortBy key false l).Sorted (fun a b => key a ≤ key b) := by
  rw [pySortBy, if_neg (by simp)]
  haveI : IsTotal NormItem (fun a b => key a ≤ key b) := ⟨fun a b => le_total _ _⟩
  haveI : IsTrans NormItem (fun a b => key a ≤ key b) :=
    ⟨fun a b c h1 h2 => le_trans h1 h2⟩
  exact List.sorted_insertionSort _ l

theorem sortResults_unsupported (l : List NormItem) (sortBy : String)
    (g1 : strContains sortBy "popularity" = false)
    (g2 : strContains sortBy "vote_average" = false)
    (g3 : strContains sortBy "release_date" = false)
    (g4 : strContains sortBy "primary_release_date" = false)
    (g5 : strContains sortBy "vote_count" = false) :
    sortResults l sortBy = l := by
  rw [sortResults, if_neg (by simp [g1]), if_neg (by simp [g2]),
    if_neg (by simp [g3, g4]), if_neg (by simp [g5])]

/-- Refinement-side definition, following the spec's words: a result
list "re-sorted per the originally requested sort key" under the key
`original_title.asc` must be in ascending (code-point lexicographic)
order of original title. -/
def specSortedByOriginalTitleAsc (l : List NormItem) : Prop :=
  l.Chain' (fun a b => (a.originalTitle.getD "").data ≤ (b.originalTitle.getD "").data)

def demoNormB : NormItem := normalizeResult demoRawB "movie"

def demoNormA : NormItem := normalizeResult demoRawA "movie"

/-- Counterexample to claim C7: with 2 regions, 1 language and the
valid movie sort key `original_title.asc`, exactly two native queries
are issued but the merged result list is NOT re-sorted by the requested
key — `_sort_results` only handles the popularity / vote_average /
release_date / vote_count families, so the merge order [B, A] is
returned as-is. -/
theorem multi_region_resort_counterexample :
    (discover demoOracle "movie" demoMultiFilters "and" "original_title.asc" 1).2.length = 2 ∧
    (discover demoOracle "movie" demoMultiFilters "and" "original_title.asc" 1).1.results
      = [demoNormB, demoNormA] ∧
    ¬ specSortedByOriginalTitleAsc
        (discover demoOracle "movie" demoMultiFilters "and" "original_title.asc" 1).1.results := by
  refine ⟨by decide, by decide, ?_⟩
  intro h
  rw [specSortedByOriginalTitleAsc,
    show (discover demoOracle "movie" demoMultiFilters "and" "original_title.asc" 1).1.results
      = [demoNormB, demoNormA] by decide] at h
  obtain ⟨hrel, _⟩ := List.chain'_cons.mp h
  exact absurd hrel (by decide)

/-- Claim C7 (amended): for a discover call whose filters supply
exactly 2 watch-region values and 1 original-language value, exactly 2
native provider queries are issued, one carrying each region value; the
merged result set contains no duplicate result identifiers even when
the per-region queries overlap; and the merged set is re-sorted by the
originally requested sort key when that key belongs to one of the four
families handled by the client-side sorter (popularity, vote_average,
release_date/primary_release_date, vote_count — ascending or
descending); for any other requested sort key (e.g. `original_title`
or `revenue`) the merged set keeps the merge order. -/
theorem multi_region_fanout (oracle : String → ℕ → List (String × FVal) → ProviderPage)
    (mediaType filterOp sortBy : String) (page : ℕ) (filters : List Filter)
    (r1 r2 lv : FVal)
    (hreg : extractMulti filters "watch_region" = [r1, r2])
    (hlang : extractMulti filters "with_original_language" = [lv]) :
    (discover oracle mediaType filters filterOp sortBy page).2.length = 2 ∧
    ((discover oracle mediaType filters filterOp sortBy page).2.map
        (fun ps => lookupParam ps "watch_region")) = [some r1, some r2] ∧
    ((discover oracle mediaType filters filterOp sortBy page).1.results.map
        (fun x => x.tmdbId)).Nodup ∧
    (strContains sortBy "popularity" = true → strEndsWith sortBy ".desc" = true →
      (discover oracle mediaType filters filterOp sortBy page).1.results.Sorted
        (fun a b => b.popularity.getD 0 ≤ a.popularity.getD 0)) ∧
    (strContains sortBy "popularity" = true → strEndsWith sortBy ".desc" = false →
      (discover oracle mediaType filters filterOp sortBy page).1.results.Sorted
        (fun a b => a.popularity.getD 0 ≤ b.popularity.getD 0)) ∧
    (strContains sortBy "popularity" = false → strContains sortBy "vote_average" = true →
      strEndsWith sortBy ".desc" = true →
      (discover oracle mediaType filters filterOp sortBy page).1.results.Sorted
        (fun a b => b.voteAverage.getD 0 ≤ a.voteAverage.getD 0)) ∧
    (strContains sortBy "popularity" = false → strContains sortBy "vote_average" = true →
      strEndsWith sortBy ".desc" = false →
      (discover oracle mediaType filters filterOp sortBy page).1.results.Sorted
        (fun a b => a.voteAverage.getD 0 ≤ b.voteAverage.getD 0)) ∧
    (strContains sortBy "popularity" = false → strContains sortBy "vote_average" = false →
      (strContains sortBy "release_date" || strContains sortBy "primary_release_date") = true →
      strEndsWith sortBy ".desc" = true →
      (discover oracle mediaType filters filterOp sortBy page).1.results.Sorted
        (fun a b => (b.releaseDate.getD "").data ≤ (a.releaseDate.getD "").data)) ∧
    (strContains sortBy "popularity" = false → strContains sortBy "vote_average" = false →
      (strContains sortBy "release_date" || strContains sortBy "primary_release_date") = true →
      strEndsWith sortBy ".desc" = false →
      (discover oracle mediaType filters filterOp sortBy page).1.results.Sorted
        (fun a b => (a.releaseDate.getD "").data ≤ (b.releaseDate.getD "").data)) ∧
    (strContains sortBy "popularity" = false → strContains sortBy "vote_average" = false →
      strContains sortBy "release_date" = false →
      strContains sortBy "primary_release_date" = false →
      strContains sortBy "vote_count" = true → strEndsWith sortBy ".desc" = true →
      (discover oracle mediaType filters filterOp sortBy page).1.results.Sorted
        (fun a b => b.voteCount.getD 0 ≤ a.voteCount.getD 0)) ∧
    (strContains sortBy "popularity" = false → strContains sortBy "vote_average" = false →
      strContains sortBy "release_date" = false →
      strContains sortBy "primary_release_date" = false →
      strContains sortBy "vote_count" = true → strEndsWith sortBy ".desc" = false →
      (discover oracle mediaType filters filterOp sortBy page).1.results.Sorted
        (fun a b => a.voteCount.getD 0 ≤ b.voteCount.getD 0)) ∧
    (strContains sortBy "popularity" = false → strContains sortBy "vote_average" = false →
      strContains sortBy "release_date" = false →
      strContains sortBy "primary_release_date" = false →
      strContains sortBy "vote_count" = false →
      (discover oracle mediaType filters filterOp sortBy page).1.results
        = (multiMerged oracle mediaType page
            (multiQueryParams mediaType filterOp sortBy filters [r1, r2] [])).take 20) := by
  have e1 : (1 : ℕ) < (extractMulti filters "watch_region").length := by rw [hreg]; simp
  have e2 : ¬ (1 : ℕ) < (extractMulti filters "with_original_language").length := by
    rw [hlang]; simp
  have hdisp : discover oracle mediaType filters filterOp sortBy page
      = discoverMultiParam oracle mediaType filters filterOp sortBy page [r1, r2] [] := by
    rw [discover, if_pos (Or.inl e1), if_pos e1, if_neg e2, hreg]
  rw [hdisp]
  simp only [discoverMultiParam]
  obtain ⟨hr1a, hr1b⟩ := extractMulti_vals filters "watch_region" r1
    (by rw [hreg]; exact List.mem_cons_self _ _)
  obtain ⟨hr2a, hr2b⟩ := extractMulti_vals filters "watch_region" r2
    (by rw [hreg]; exact List.mem_cons_of_mem _ (List.mem_cons_self _ _))
  have hnodup : (((sortResults (multiMerged oracle mediaType page
      (multiQueryParams mediaType filterOp sortBy filters [r1, r2] [])) sortBy).take 20).map
        (fun x => x.tmdbId)).Nodup := by
    have h1 : ((multiMerged oracle mediaType page
        (multiQueryParams mediaType filterOp sortBy filters [r1, r2] [])).map
          (fun x => x.tmdbId)).Nodup := dedup_ids_nodup _
    have hperm := (sortResults_perm (multiMerged oracle mediaType page
      (multiQueryParams mediaType filterOp sortBy filters [r1, r2] [])) sortBy).map
        (fun x => x.tmdbId)
    have h2 := (hperm.nodup_iff).mpr h1
    rw [List.map_take]
    exact List.Nodup.sublist (List.take_sublist _ _) h2
  refine ⟨?_, ?_, hnodup, ?_, ?_, ?_, ?_, ?_, ?_, ?_, ?_, ?_⟩
  · rw [multiQueryParams_two_regions]; rfl
  · rw [multiQueryParams_two_regions]
    simp only [List.map_cons, List.map_nil]
    rw [query_param_value _ _ _ _ _ _ (by decide) (by decide) (by decide) (by decide)
        (by decide) hr1a hr1b,
      query_param_value _ _ _ _ _ _ (by decide) (by decide) (by decide) (by decide)
        (by decide) hr2a hr2b]
  · intro g1 ge
    rw [show sortResults (multiMerged oracle mediaType page
        (multiQueryParams mediaType filterOp sortBy filters [r1, r2] [])) sortBy
      = pySortBy (fun x => x.popularity.getD 0) true _ by rw [sortResults, if_pos g1, ge]]
    exact List.Pairwise.sublist (List.take_sublist _ _) (pySortBy_sorted_desc _ _)
  · intro g1 ge
    rw [show sortResults (multiMerged oracle mediaType page
        (multiQueryParams mediaType filterOp sortBy filters [r1, r2] [])) sortBy
      = pySortBy (fun x => x.popularity.getD 0) false _ by rw [sortResults, if_pos g1, ge]]
    exact List.Pairwise.sublist (List.take_sublist _ _) (pySortBy_sorted_asc _ _)
  · intro g1 g2 ge
    rw [show sortResults (multiMerged oracle mediaType page
        (multiQueryParams mediaType filterOp sortBy filters [r1, r2] [])) sortBy
      = pySortBy (fun x => x.voteAverage.getD 0) true _ by
        rw [sortResults, if_neg (by simp [g1]), if_pos g2, ge]]
    exact List.Pairwise.sublist (List.take_sublist _ _) (pySortBy_sorted_desc _ _)
  · intro g1 g2 ge
    rw [show sortResults (multiMerged oracle mediaType page
        (multiQueryParams mediaType filterOp sortBy filters [r1, r2] [])) sortBy
      = pySortBy (fun x => x.voteAverage.getD 0) false _ by
        rw [sortResults, if_neg (by simp [g1]), if_pos g2, ge]]
    exact List.Pairwise.sublist (List.take_sublist _ _) (pySortBy_sorted_asc _ _)
  · intro g1 g2 g3 ge
    rw [show sortResults (multiMerged oracle mediaType page
        (multiQueryParams mediaType filterOp sortBy filters [r1, r2] [])) sortBy
      = pySortBy (fun x => (x.releaseDate.getD "").data) true _ by
        rw [sortResults, if_neg (by simp [g1]), if_neg (by simp [g2]), if_pos g3, ge]]
    exact List.Pairwise.sublist (List.take_sublist _ _) (pySortBy_sorted_desc _ _)
  · intro g1 g2 g3 ge
    rw [show sortResults (multiMerged oracle mediaType page
        (multiQueryParams mediaType filterOp sortBy filters [r1, r2] [])) sortBy
      = pySortBy (fun x => (x.releaseDate.getD "").data) false _ by
        rw [sortResults, if_neg (by simp [g1]), if_neg (by simp [g2]), if_pos g3, ge]]
    exact List.Pairwise.sublist (List.take_sublist _ _) (pySortBy_sorted_asc _ _)
  · intro g1 g2 g3 g4 g5 ge
    rw [show sortResults (multiMerged oracle mediaType page
        (multiQueryParams mediaType filterOp sortBy filters [r1, r2] [])) sortBy
      = pySortBy (fun x => x.voteCount.getD 0) true _ by
        rw [sortResults, if_neg (by simp [g1]), if_neg (by simp [g2]),
          if_neg (by simp [g3, g4]), if_pos g5, ge]]
    exact List.Pairwise.sublist (List.take_sublist _ _) (pySortBy_sorted_desc _ _)
  · intro g1 g2 g3 g4 g5 ge
    rw [show sortResults (multiMerged oracle mediaType page
        (multiQueryParams mediaType filterOp sortBy filters [r1, r2] [])) sortBy
      = pySortBy (fun x => x.voteCount.getD 0) false _ by
        rw [sortResults, if_neg (by simp [g1]), if_neg (by simp [g2]),
          if_neg (by simp [g3, g4]), if_pos g5, ge]]
    exact List.Pairwise.sublist (List.take_sublist _ _) (pySortBy_sorted_asc _ _)
  · intro g1 g2 g3 g4 g5
    rw [sortResults_unsupported _ _ g1 g2 g3 g4 g5]

/-- Witness for the amended claim C7 on the concrete demo scenario. -/
theorem multi_region_fanout_witness :
    extractMulti demoMultiFilters "watch_region" = [FVal.s "DE", FVal.s "US"] ∧
    extractMulti demoMultiFilters "with_original_language" = [FVal.s "en"] ∧
    (discover demoOracle "movie" demoMultiFilters "and" "popularity.desc" 1).2.length = 2 ∧
    ((discover demoOracle "movie" demoMultiFilters "and" "popularity.desc" 1).2.map
        (fun ps => lookupParam ps "watch_region"))
      = [some (FVal.s "DE"), some (FVal.s "US")] ∧
    ((discover demoOracle "movie" demoMultiFilters "and" "popularity.desc" 1).1.results.map
        (fun x => x.tmdbId)).Nodup :=
  ⟨by decide, by decide,
   (multi_region_fanout demoOracle "movie" "and" "popularity.desc" 1 demoMultiFilters
      (FVal.s "DE") (FVal.s "US") (FVal.s "en") (by decide) (by decide)).1,
   (multi_region_fanout demoOracle "movie" "and" "popularity.desc" 1 demoMultiFilters
      (FVal.s "DE") (FVal.s "US") (FVal.s "en") (by decide) (by decide)).2.1,
   (multi_region_fanout demoOracle "movie" "and" "popularity.desc" 1 demoMultiFilters
      (FVal.s "DE") (FVal.s "US") (FVal.s "en") (by decide) (by decide)).2.2.1⟩

end FilterEngine

/-! ## Hybrid rating-driven discovery —
`backend/services/local_discover.py`, `LocalDiscoverService.discover_movies`

Step 1 queries the `imdb_ratings` table (primary key `tconst`) for a
page of rows `(tconst, averageRating, numVotes)`; step 2 partitions the
identifiers into locally cached movies (the `movies` table queried by
`imdb_id`, materialized as a Python dict) and missing ones resolved by
concurrent `/find` API calls (`fetch_missing` pins `imdb_id` back onto
each normalized result); finally the results are re-assembled in the
original identifier order through a dict keyed by `imdb_id`, and the
rating payload from step 1 is injected into every returned item.  The
rating query and the API are oracles; the cache write-back
(`session.add` of newly fetched movies) happens after `final_results`
is built and does not affect the returned list. -/

namespace LocalDiscover

structure ImdbRow where
  tconst : String
  averageRating : ℚ
  numVotes : ℤ
deriving DecidableEq

/-- The `movies` table row (`backend/models_media.py`), restricted to
the columns `_normalize_movie` reads. -/
structure Movie where
  id : ℕ
  imdbId : Option String
  title : String
  originalTitle : Option String
  overview : Option String
  posterPath : Option String
  backdropPath : Option String
  releaseDate : Option String
  voteAverage : Option ℚ
  voteCount : Option ℤ
  popularity : Option ℚ
deriving DecidableEq

/-- A result dict of `discover_movies`: `_normalize_movie` output, or
`normalize_result` output with `imdb_id` pinned, plus the optional
injected `imdb_rating` / `imdb_votes` keys. -/
structure DItem where
  tmdbId : ℕ
  mediaType : String
  imdbId : Option String
  title : Option String
  originalTitle : Option String
  overview : Option String
  posterPath : Option String
  backdropPath : Option String
  releaseDate : Option String
  voteAverage : Option ℚ
  voteCount : Option ℤ
  popularity : Option ℚ
  genreIds : Option (List ℕ)
  imdbRating : Option ℚ
  imdbVotes : Option ℤ
deriving DecidableEq

/-- `_normalize_movie` (lines 199-215). -/
def normalizeMovie (m : Movie) : DItem :=
  { tmdbId := m.id, mediaType := "movie", imdbId := m.imdbId, title := some m.title,
    originalTitle := m.originalTitle, overview := m.overview, posterPath := m.posterPath,
    backdropPath := m.backdropPath, releaseDate := m.releaseDate,
    voteAverage := m.voteAverage, voteCount := m.voteCount, popularity := m.popularity,
    genreIds := Option.none, imdbRating := Option.none, imdbVotes := Option.none }

/-- The dict `local_movies = {m.imdb_id: m for m in ...}` (line 63),
looked up at `tconst`; later dict entries win. -/
def localLookup (movies : List Movie) (t : String) : Option Movie :=
  movies.reverse.find? (fun m => m.imdbId == some t)

/-- `fetch_missing` (lines 72-86): the first `movie_results` entry of
the `/find` lookup is normalized and its `imdb_id` pinned to the
queried identifier; no result (or an exception) yields `None`.  The
`api` oracle stands for `data.get("movie_results", [])`. -/
def fetchMissing (api : String → List FilterEngine.RawItem) (t : String) : Option DItem :=
  match api t with
  | [] => Option.none
  | r :: _ =>
    some { tmdbId := (FilterEngine.normalizeResult r "movie").tmdbId
           mediaType := (FilterEngine.normalizeResult r "movie").mediaType
           imdbId := some t
           title := (FilterEngine.normalizeResult r "movie").title
           originalTitle := (FilterEngine.normalizeResult r "movie").originalTitle
           overview := (FilterEngine.normalizeResult r "movie").overview
           posterPath := (FilterEngine.normalizeResult r "movie").posterPath
           backdropPath := (FilterEngine.normalizeResult r "movie").backdropPath
           releaseDate := (FilterEngine.normalizeResult r "movie").releaseDate
           voteAverage := (FilterEngine.normalizeResult r "movie").voteAverage
           voteCount := (FilterEngine.normalizeResult r "movie").voteCount
           popularity := (FilterEngine.normalizeResult r "movie").popularity
           genreIds := some (FilterEngine.normalizeResult r "movie").genreIds
           imdbRating := Option.none
           imdbVotes := Option.none }

/-- `final_results` (lines 88-107): locally cached items are appended
in identifier order during the partition pass; the successful live
fetches are appended afterwards in task order. -/
def finalResults (rows : List ImdbRow) (movies : List Movie)
    (api : String → List FilterEngine.RawItem) : List DItem :=
  ((rows.map (fun r => r.tconst)).filterMap (fun t => (localLookup movies t).map normalizeMovie))
  ++ ((rows.map (fun r => r.tconst)).filter (fun t => (localLookup movies t).isNone)).filterMap
      (fetchMissing api)

/-- The reassembly dict `lookup = {get_imdb_id(m): m for m in
final_results}` (line 149), queried at a `tconst`. -/
def dictLookup (items : List DItem) (t : String) : Option DItem :=
  items.reverse.find? (fun i => i.imdbId == some t)

/-- The rating dict `imdb_data_map` (line 56), queried at a `tconst`. -/
def ratingData (rows : List ImdbRow) (t : String) : Option (ℚ × ℤ) :=
  (rows.reverse.find? (fun r => r.tconst == t)).map (fun r => (r.averageRating, r.numVotes))

/-- `item.update(imdb_data_map[tconst])` guarded by `if tconst in
imdb_data_map` (lines 159-160). -/
def injectRatings (item : DItem) : Option (ℚ × ℤ) → DItem
  | some rv => { item with imdbRating := some rv.1, imdbVotes := some rv.2 }
  | Option.none => item

/-- `ordered_results` (lines 143-162): walk the identifiers in the
original rating-query order, keep the resolvable ones, inject the
rating payload. -/
def orderedResults (rows : List ImdbRow) (movies : List Movie)
    (api : String → List FilterEngine.RawItem) : List DItem :=
  (rows.map (fun r => r.tconst)).filterMap (fun t =>
    (dictLookup (finalResults rows movies api) t).map
      (fun item => injectRatings item (ratingData rows t)))

structure DiscoverPage where
  results : List DItem
  page : ℕ
  totalPages : ℕ
  totalResults : ℕ
deriving DecidableEq

/-- `discover_movies` (lines 14-171), with the rating-query page, the
local cache query and the live lookup supplied as oracles. -/
def discoverMovies (rows : List ImdbRow) (movies : List Movie)
    (api : String → List FilterEngine.RawItem)
    (page limit totalResults : ℕ) : DiscoverPage :=
  if rows = [] then ⟨[], page, 0, 0⟩
  else ⟨orderedResults rows movies api, page, (totalResults + limit - 1) / limit, totalResults⟩

/-- Resolution of one identifier: the local cache first, then the live
lookup — the value the reassembly returns for that identifier. -/
def resolveOne (movies : List Movie) (api : String → List FilterEngine.RawItem)
    (t : String) : Option DItem :=
  match localLookup movies t with
  | some m => some (normalizeMovie m)
  | Option.none => fetchMissing api t

theorem find?_unique {α : Type} (p : α → Bool) (l : List α) (a : α)
    (ha : a ∈ l) (hpa : p a = true) (huniq : ∀ b ∈ l, p b = true → b = a) :
    l.find? p = some a := by
  induction l with
  | nil => simp at ha
  | cons x l ih =>
    by_cases hx : p x = true
    · have hxa : x = a := huniq x (List.mem_cons_self _ _) hx
      simp only [List.find?, hx]
      rw [hxa]
    · have hxf : p x = false := by
        cases hpx : p x
        · rfl
        · exact absurd hpx hx
      simp only [List.find?, hxf]
      have ha' : a ∈ l := by
        rcases List.mem_cons.mp ha with rfl | h
        · exact absurd hpa hx
        · exact h
      exact ih ha' (fun b hb hpb => huniq b (List.mem_cons_of_mem _ hb) hpb)

theorem resolveOne_imdbId (movies : List Movie) (api : String → List FilterEngine.RawItem)
    (t : String) (it : DItem) (h : resolveOne movies api t = some it) :
    it.imdbId = some t := by
  rw [resolveOne] at h
  cases hl : localLookup movies t with
  | some m =>
    rw [hl] at h
    rw [localLookup] at hl
    have hm := List.find?_some hl
    have hmid : m.imdbId = some t := by simpa using hm
    have h' : some (normalizeMovie m) = some it := h
    cases h'
    simpa [normalizeMovie] using hmid
  | none =>
    rw [hl] at h
    have h' : fetchMissing api t = some it := h
    rw [fetchMissing] at h'
    cases hapi : api t with
    | nil => rw [hapi] at h'; cases h'
    | cons r rs =>
      rw [hapi] at h'
      have h'' := Option.some.inj h'
      cases h''
      rfl

theorem finalResults_mem (rows : List ImdbRow) (movies : List Movie)
    (api : String → List FilterEngine.RawItem) :
    ∀ it ∈ finalResults rows movies api,
      ∃ t ∈ rows.map (fun r => r.tconst),
        it.imdbId = some t ∧ resolveOne movies api t = some it := by
  intro it hit
  rcases List.mem_append.mp hit with h | h
  · obtain ⟨t, ht, hsome⟩ := List.mem_filterMap.mp h
    cases hl : localLookup movies t with
    | none => rw [hl] at hsome; cases hsome
    | some m =>
      rw [hl] at hsome
      simp only [Option.map] at hsome
      have hres : resolveOne movies api t = some it := by
        rw [resolveOne, hl]
        exact hsome
      exact ⟨t, ht, resolveOne_imdbId movies api t it hres, hres⟩
  · obtain ⟨t, ht, hsome⟩ := List.mem_filterMap.mp h
    have ht' := List.mem_filter.mp ht
    have hl : localLookup movies t = Option.none := by
      cases hlv : localLookup movies t
      · rfl
      · rw [hlv] at ht'; simp [Option.isNone] at ht'
    have hres : resolveOne movies api t = some it := by
      rw [resolveOne, hl]
      exact hsome
    exact ⟨t, ht'.1, resolveOne_imdbId movies api t it hres, hres⟩

theorem resolveOne_mem (rows : List ImdbRow) (movies : List Movie)
    (api : String → List FilterEngine.RawItem) (t : String)
    (ht : t ∈ rows.map (fun r => r.tconst)) (it : DItem)
    (hres : resolveOne movies api t = some it) :
    it ∈ finalResults rows movies api := by
  rw [resolveOne] at hres
  cases hl : localLookup movies t with
  | some m =>
    rw [hl] at hres
    refine List.mem_append.mpr (Or.inl (List.mem_filterMap.mpr ⟨t, ht, ?_⟩))
    rw [hl]
    exact hres
  | none =>
    rw [hl] at hres
    refine List.mem_append.mpr (Or.inr (List.mem_filterMap.mpr ⟨t, ?_, hres⟩))
    refine List.mem_filter.mpr ⟨ht, ?_⟩
    rw [hl]
    rfl

/-- The reassembly dict returns exactly the resolution of each
identifier: every `final_results` entry carries its identifier as
`imdb_id`, and resolution is deterministic, so key collisions cannot
disagree. -/
theorem dictLookup_finalResults (rows : List ImdbRow) (movies : List Movie)
    (api : String → List FilterEngine.RawItem) (t : String)
    (ht : t ∈ rows.map (fun r => r.tconst)) :
    dictLookup (finalResults rows movies api) t = resolveOne movies api t := by
  rw [dictLookup]
  cases hres : resolveOne movies api t with
  | some it =>
    refine find?_unique _ _ it (List.mem_reverse.mpr (resolveOne_mem rows movies api t ht it hres))
      (by simp [resolveOne_imdbId movies api t it hres]) ?_
    intro b hb hpb
    obtain ⟨t', _, hbid, hres'⟩ := finalResults_mem rows movies api b (List.mem_reverse.mp hb)
    have hbt : b.imdbId = some t := by simpa using hpb
    rw [hbt] at hbid
    cases hbid
    rw [hres] at hres'
    cases hres'
    rfl
  | none =>
    rw [List.find?_eq_none]
    intro b hb hpb
    obtain ⟨t', _, hbid, hres'⟩ := finalResults_mem rows movies api b (List.mem_reverse.mp hb)
    have hbt : b.imdbId = some t := by simpa using hpb
    rw [hbt] at hbid
    cases hbid
    rw [hres] at hres'
    cases hres'

theorem ratingData_self (rows : List ImdbRow)
    (hnd : (rows.map (fun r => r.tconst)).Nodup) (r : ImdbRow) (hr : r ∈ rows) :
    ratingData rows r.tconst = some (r.averageRating, r.numVotes) := by
  rw [ratingData]
  rw [find?_unique (fun x => x.tconst == r.tconst) rows.reverse r
    (List.mem_reverse.mpr hr) (by simp) ?_]
  · rfl
  · intro b hb hpb
    have hbt : b.tconst = r.tconst := by simpa using hpb
    exact List.inj_on_of_nodup_map hnd (List.mem_reverse.mp hb) hr hbt

theorem filterMap_congr_mem {α β : Type} (l : List α) (f g : α → Option β)
    (h : ∀ a ∈ l, f a = g a) : l.filterMap f = l.filterMap g := by
  induction l with
  | nil => rfl
  | cons a l ih =>
    rw [List.filterMap_cons, List.filterMap_cons, h a (List.mem_cons_self _ _),
      ih (fun a ha => h a (List.mem_cons_of_mem _ ha))]

theorem filterMap_if_isSome {α β : Type} (l : List α) (p : α → Bool) (g : α → β) :
    l.filterMap (fun a => if p a then some (g a) else Option.none) = (l.filter p).map g := by
  induction l with
  | nil => rfl
  | cons a l ih =>
    by_cases hp : p a = true
    · rw [List.filterMap_cons, List.filter_cons]
      simp only [hp, if_pos]
      rw [List.map_cons, ih]
    · have hpf : p a = false := by
        cases hpa : p a
        · rfl
        · exact absurd hpa hp
      rw [List.filterMap_cons, List.filter_cons]
      simp only [hpf, Bool.false_eq_true, if_neg, if_false]
      exact ih

/-- Claim C2: the rating-driven discover call returns the identifiers
in exactly the rating-query order — each row resolves through the local
cache or the live lookup, unresolvable identifiers are omitted without
disturbing the order, and every returned item carries the rating
payload (average rating, vote count) of its row; the identifier
sequence of the output is the original sequence filtered to the
resolvable identifiers, independent of which identifiers were cached
and which needed live lookups. -/
theorem discover_movies_order_preserved (rows : List ImdbRow) (movies : List Movie)
    (api : String → List FilterEngine.RawItem)
    (hnd : (rows.map (fun r => r.tconst)).Nodup) :
    orderedResults rows movies api
      = rows.filterMap (fun r => (resolveOne movies api r.tconst).map
          (fun item =>
            { item with
                imdbRating := some r.averageRating
                imdbVotes := some r.numVotes })) ∧
    (orderedResults rows movies api).map (fun it => it.imdbId)
      = ((rows.map (fun r => r.tconst)).filter
          (fun t => (resolveOne movies api t).isSome)).map some ∧
    ∀ page limit total, (discoverMovies rows movies api page limit total).results
      = if rows = [] then [] else orderedResults rows movies api := by
  have hkey : orderedResults rows movies api
      = (rows.map (fun r => r.tconst)).filterMap (fun t =>
          (resolveOne movies api t).map (fun item => injectRatings item (ratingData rows t))) := by
    rw [orderedResults]
    apply filterMap_congr_mem
    intro t ht
    rw [dictLookup_finalResults rows movies api t ht]
  constructor
  · rw [hkey, List.filterMap_map]
    apply filterMap_congr_mem
    intro r hr
    show (resolveOne movies api r.tconst).map
        (fun item => injectRatings item (ratingData rows r.tconst)) = _
    rw [ratingData_self rows hnd r hr]
    rfl
  constructor
  · rw [hkey, List.map_filterMap]
    rw [filterMap_congr_mem _ _ (fun t =>
      if (resolveOne movies api t).isSome then some (some t) else Option.none) ?_]
    · exact filterMap_if_isSome _ _ _
    · intro t _
      show ((resolveOne movies api t).map
            (fun item => injectRatings item (ratingData rows t))).map (fun it => it.imdbId)
          = if (resolveOne movies api t).isSome then some (some t) else Option.none
      cases hres : resolveOne movies api t with
      | none => rfl
      | some it =>
        have hid := resolveOne_imdbId movies api t it hres
        cases hrd : ratingData rows t with
        | none => simp [injectRatings, hid]
        | some rv => simp [injectRatings, hid]
  · intro page limit total
    rw [discoverMovies]
    by_cases h : rows = []
    · rw [if_pos h, if_pos h]
    · rw [if_neg h, if_neg h]

/-- A rating page: `tt1` is cached locally, `tt2` resolves through the
live `/find` lookup, `tt3` resolves nowhere. -/
def demoDRows : List ImdbRow :=
  [⟨"tt1", 81/10, 1000⟩, ⟨"tt2", 75/10, 500⟩, ⟨"tt3", 6, 10⟩]

def demoDMovies : List Movie :=
  [{ id := 42, imdbId := some "tt1", title := "Local One", originalTitle := Option.none,
     overview := Option.none, posterPath := Option.none, backdropPath := Option.none,
     releaseDate := Option.none, voteAverage := some 8, voteCount := some 900,
     popularity := some 5 }]

def demoFindRaw : FilterEngine.RawItem :=
  { id := 99, title := some "Fetched Two", name := Option.none,
    originalTitle := Option.none, originalName := Option.none,
    posterPath := Option.none, backdropPath := Option.none, overview := Option.none,
    releaseDate := Option.none, firstAirDate := Option.none,
    voteAverage := some 7, voteCount := some 100, popularity := some 3, genreIds := [12] }

def demoDApi : String → List FilterEngine.RawItem :=
  fun t => if t = "tt2" then [demoFindRaw] else []

/-- Claim C2 witness: on the concrete page the identifier sequence of
the output is the rating-query order filtered to the two resolvable
identifiers, and the returned page carries exactly those ordered
results. -/
theorem discover_movies_order_preserved_witness :
    (demoDRows.map (fun r => r.tconst)).Nodup ∧
    (orderedResults demoDRows demoDMovies demoDApi).map (fun it => it.imdbId)
      = ((demoDRows.map (fun r => r.tconst)).filter
          (fun t => (resolveOne demoDMovies demoDApi t).isSome)).map some ∧
    ((demoDRows.map (fun r => r.tconst)).filter
        (fun t => (resolveOne demoDMovies demoDApi t).isSome)).map some
      = [some "tt1", some "tt2"] ∧
    (discoverMovies demoDRows demoDMovies demoDApi 1 20 3).results
      = if demoDRows = [] then [] else orderedResults demoDRows demoDMovies demoDApi :=
  ⟨by decide,
   (discover_movies_order_preserved demoDRows demoDMovies demoDApi (by decide)).2.1,
   by decide,
   (discover_movies_order_preserved demoDRows demoDMovies demoDApi (by decide)).2.2 1 20 3⟩

end LocalDiscover

end MediaCore
